import Mathlib

/-!
Verification development for the Bull-Maharaj trading decision engine
(`server/model/tradingBot.ts`, bundled in `src/server/auth.ts`, plus the
route wiring in `server/routes.ts`).

The engine's numeric code is translated shallowly into Lean over `ℚ`:
JavaScript numbers become rationals, JS division is total rational
division (the engine never hits `0/0` on the paths settled here, except
where noted), and `Math.sqrt` — which has no exact rational counterpart —
is passed in explicitly as a function parameter `sqrtFn`; theorems that
need it assume only `0 ≤ sqrtFn x`, which `Math.sqrt` satisfies on the
nonnegative variances it is applied to. Randomness (`Math.random()`) is
modelled by explicit parameters (`rand1`, `randIndex`). The singleton
bot's mutable fields become an explicit `BotState` record threaded
through the operations, and the external storage collaborators
(`storage.getStock`, trade ledger) become function parameters / a ledger
list in the state.
-/

set_option autoImplicit false

namespace TradingBot

/-- The three trade signals (`TradingSignal` in the source). -/
inductive TradingSignal where
  | BUY
  | SELL
  | HOLD
deriving DecidableEq, Repr, Inhabited

/-- The five strategy names (`TradingStrategy` in the source). -/
inductive TradingStrategy where
  | MOVING_AVERAGE
  | RSI
  | MACD
  | BOLLINGER
  | REINFORCEMENT_LEARNING
deriving DecidableEq, Repr, Inhabited

/-- One OHLCV bar (`StockPriceHistory` in the source). The engine only ever
reads `close`; the remaining fields are carried for fidelity. The JS field
`open` is renamed `openPrice` because `open` is a Lean keyword. -/
structure StockPriceHistory where
  date : String
  openPrice : ℚ
  high : ℚ
  low : ℚ
  close : ℚ
  volume : ℚ
deriving DecidableEq, Repr, Inhabited

/-- A stock row as returned by `storage.getStock` (only the fields the
engine reads). -/
structure Stock where
  symbol : String
  currentPrice : ℚ
deriving DecidableEq, Repr, Inhabited

/-- A decision produced by a strategy (`TradingDecision` in the source). -/
structure TradingDecision where
  signal : TradingSignal
  confidence : ℚ
  reason : String
  indicatorsUsed : List String
deriving DecidableEq, Repr, Inhabited

/-- JS `prices.slice(-period)`: the trailing `period` elements (the whole
list when `period` exceeds the length, since `Nat` subtraction truncates
at zero exactly as `slice` clamps). -/
def lastSlice (prices : List ℚ) (period : ℕ) : List ℚ :=
  prices.drop (prices.length - period)

/-- `calculateSMA` (source lines 1046-1052): arithmetic mean of the last
`period` prices; if fewer than `period` prices exist it returns
`prices[prices.length - 1]` (modelled as `getLastD 0`; the engine never
calls it on an empty list on the paths settled here). -/
def calculateSMA (prices : List ℚ) (period : ℕ) : ℚ :=
  if prices.length < period then prices.getLastD 0
  else (lastSlice prices period).sum / (period : ℚ)

/-- `calculateEMA` (source lines 1125-1143): seeded with the SMA of the
first `period` prices, then the recurrence
`ema = (price - ema) * (2/(period+1)) + ema` walked over the rest; an
input shorter than `period` collapses to the SMA of the whole input. -/
def calculateEMA (prices : List ℚ) (period : ℕ) : ℚ :=
  if prices.length < period then calculateSMA prices prices.length
  else
    (prices.drop period).foldl
      (fun ema price => (price - ema) * (2 / ((period : ℚ) + 1)) + ema)
      (calculateSMA (prices.take period) period)

/-- The day-over-day change series `prices[i] - prices[i-1]` for
`i = 1 .. length-1`. -/
def priceChanges (prices : List ℚ) : List ℚ :=
  (prices.zip prices.tail).map (fun p => p.2 - p.1)

/-- The gain contribution of one change in the initial averaging window
(`change >= 0 ? change : 0` at source line 1066 counts a zero change as a
gain). -/
def gainClip (change : ℚ) : ℚ :=
  if 0 ≤ change then change else 0

/-- The loss contribution of one change (`change < 0 ? -change : 0`,
source lines 1069 and 1081). -/
def lossClip (change : ℚ) : ℚ :=
  if change < 0 then -change else 0

/-- One step of Wilder's smoothing (source lines 1077-1082): the pair is
`(avgGain, avgLoss)`. Note the strict `change > 0` for gains here versus
`change >= 0` in the initial window, exactly as in the source. -/
def wilderStep (period : ℕ) (gl : ℚ × ℚ) (change : ℚ) : ℚ × ℚ :=
  ((gl.1 * ((period : ℚ) - 1) + (if 0 < change then change else 0)) / (period : ℚ),
   (gl.2 * ((period : ℚ) - 1) + lossClip change) / (period : ℚ))

/-- `calculateRSI` (source lines 1057-1088): returns 50 when
`prices.length <= period`; otherwise averages gains/losses over the first
`period` changes (a change of 0 counts as a gain there), Wilder-smooths
through the remaining changes, returns 100 when the final average loss is
zero and `100 - 100/(1+rs)` otherwise. -/
def calculateRSI (prices : List ℚ) (period : ℕ) : ℚ :=
  if prices.length ≤ period then 50
  else
    let chs := priceChanges prices
    let initGains := ((chs.take period).map gainClip).sum
    let initLosses := ((chs.take period).map lossClip).sum
    let final := (chs.drop period).foldl (wilderStep period)
      (initGains / (period : ℚ), initLosses / (period : ℚ))
    if final.2 = 0 then 100
    else 100 - 100 / (1 + final.1 / final.2)

/-- Result record of `calculateMACD`. -/
structure MACDResult where
  macdLine : ℚ
  signalLine : ℚ
  histogram : ℚ
deriving DecidableEq, Repr, Inhabited

/-- `calculateMACD` (source lines 1093-1120): all-zero under 26 points;
otherwise `macdLine = EMA12 - EMA26`, the signal line is the EMA-9 of the
MACD recomputed on each of the last 9 prefixes (`i` from
`max(0, length-9)` to `length-1`, prefix `prices.slice(0, i+1)`), and the
histogram is their difference. -/
def calculateMACD (prices : List ℚ) : MACDResult :=
  if prices.length < 26 then ⟨0, 0, 0⟩
  else
    let ema12 := calculateEMA prices 12
    let ema26 := calculateEMA prices 26
    let macdLine := ema12 - ema26
    let start := prices.length - 9
    let macdValues := (List.range (prices.length - start)).map
      (fun j =>
        calculateEMA (prices.take (start + j + 1)) 12 -
        calculateEMA (prices.take (start + j + 1)) 26)
    let signalLine := calculateEMA macdValues (min 9 macdValues.length)
    ⟨macdLine, signalLine, macdLine - signalLine⟩

/-- Result record of `calculateBollingerBands`. -/
structure BollingerResult where
  upper : ℚ
  middle : ℚ
  lower : ℚ
deriving DecidableEq, Repr, Inhabited

/-- `calculateBollingerBands` (source lines 1148-1172): under `period`
points it falls back to `avg ± 10%`; otherwise middle = SMA, the
variance is the population variance of the trailing `period` prices, and
the bands sit `stdDevMultiplier` standard deviations away. `Math.sqrt`
is the parameter `sqrtFn`. -/
def calculateBollingerBands (sqrtFn : ℚ → ℚ) (prices : List ℚ) (period : ℕ)
    (stdDevMultiplier : ℚ) : BollingerResult :=
  if prices.length < period then
    let avg := prices.sum / (prices.length : ℚ)
    ⟨avg * (11/10), avg, avg * (9/10)⟩
  else
    let middle := calculateSMA prices period
    let recentPrices := lastSlice prices period
    let variance := (recentPrices.map (fun p => (p - middle) * (p - middle))).sum / (period : ℚ)
    let stdDev := sqrtFn variance
    ⟨middle + stdDev * stdDevMultiplier, middle, middle - stdDev * stdDevMultiplier⟩

/-- The population variance of the trailing `period` simple returns
`prices[i]/prices[i-1] - 1`, exactly the `variance` local of
`calculateVolatility` (source lines 1180-1194), named so that theorems
can talk about the value `Math.sqrt` is applied to. -/
def returnsVariance (prices : List ℚ) (period : ℕ) : ℚ :=
  let returns := (prices.zip prices.tail).map (fun p => p.2 / p.1 - 1)
  let recentReturns := lastSlice returns period
  let mean := recentReturns.sum / (period : ℚ)
  (recentReturns.map (fun r => (r - mean) * (r - mean))).sum / (period : ℚ)

/-- `calculateVolatility` (source lines 1177-1197): default `0.02` under
`period + 1` points; otherwise the population standard deviation of the
trailing `period` simple returns. `Math.sqrt` is the parameter
`sqrtFn`, applied to `returnsVariance`. -/
def calculateVolatility (sqrtFn : ℚ → ℚ) (prices : List ℚ) (period : ℕ) : ℚ :=
  if prices.length < period + 1 then 2/100
  else sqrtFn (returnsVariance prices period)

/-- The string name of a signal, as interpolated into `state:action` keys. -/
def signalName : TradingSignal → String
  | .BUY => "BUY"
  | .SELL => "SELL"
  | .HOLD => "HOLD"

/-- The composite Q-table key `state + ":" + action` built by the template
literal in the source. -/
def stateActionKey (state : String) (action : TradingSignal) : String :=
  state ++ ":" ++ signalName action

/-- JS `Map.get(key) || 0`: the stored Q-value, defaulting to 0. -/
def lookupQ (qValues : List (String × ℚ)) (key : String) : ℚ :=
  match qValues.lookup key with
  | some v => v
  | none => 0

/-- JS `Map.set(key, v)`: replace the binding for `key` if present, else
append it. -/
def setQ : List (String × ℚ) → String → ℚ → List (String × ℚ)
  | [], key, v => [(key, v)]
  | (k, w) :: rest, key, v =>
    if k = key then (key, v) :: rest else (k, w) :: setQ rest key v

/-- `createStateRepresentation` (source lines 881-901): sentinel
`"insufficient_data"` under 14 bars; otherwise discretizes RSI(14),
price-versus-SMA(min 50 n), and Volatility(10) into buckets and joins
them with underscores. The `stock` parameter of the source is never read
and so is omitted. -/
def createStateRepresentation (sqrtFn : ℚ → ℚ)
    (priceHistory : List StockPriceHistory) : String :=
  if priceHistory.length < 14 then "insufficient_data"
  else
    let closePrices := priceHistory.map (fun day => day.close)
    let rsi := calculateRSI closePrices 14
    let sma50 := calculateSMA closePrices (min 50 closePrices.length)
    let currentPrice := closePrices.getLastD 0
    let priceLevel := if sma50 < currentPrice then "above_sma50" else "below_sma50"
    let rsiLevel := if rsi < 30 then "oversold" else if 70 < rsi then "overbought" else "neutral"
    let volatility := calculateVolatility sqrtFn closePrices 10
    let volatilityLevel :=
      if volatility < 1/100 then "low" else if 3/100 < volatility then "high" else "medium"
    priceLevel ++ "_" ++ rsiLevel ++ "_" ++ volatilityLevel

/-- `calculateActionDifference` (source lines 906-920) on the value object
`{BUY: qB, SELL: qS, HOLD: qH}` (JS `Object.values` yields insertion
order): 0 when all three agree, else the gap between the maximum and the
average of the values different from the maximum, clamped to [0,1]. -/
def calculateActionDifference (qB qS qH : ℚ) : ℚ :=
  if qS = qB ∧ qH = qB then 0
  else
    let maxValue := max qB (max qS qH)
    let othersSum := (if qB = maxValue then 0 else qB) +
      ((if qS = maxValue then 0 else qS) + (if qH = maxValue then 0 else qH))
    let othersAvg := othersSum / 2
    min 1 (max 0 (maxValue - othersAvg))

/-- `movingAverageStrategy` (source lines 479-528). The unread `stock`
parameter is omitted. Reason strings are the source literals; the two
template-literal variants of the HOLD reason are flattened. -/
def movingAverageStrategy (priceHistory : List StockPriceHistory) : TradingDecision :=
  if priceHistory.length < 50 then
    ⟨.HOLD, 50, "Insufficient historical data for MA strategy", ["SMA"]⟩
  else
    let closePrices := priceHistory.map (fun day => day.close)
    let sma10 := calculateSMA closePrices 10
    let sma50 := calculateSMA closePrices 50
    let prevSma10 := calculateSMA closePrices.dropLast 10
    let prevSma50 := calculateSMA closePrices.dropLast 50
    if prevSma10 ≤ prevSma50 ∧ sma50 < sma10 then
      ⟨.BUY, 75, "Short-term MA crossed above long-term MA", ["SMA10", "SMA50"]⟩
    else if prevSma50 ≤ prevSma10 ∧ sma10 < sma50 then
      ⟨.SELL, 75, "Short-term MA crossed below long-term MA", ["SMA10", "SMA50"]⟩
    else
      let trendStrength := |sma10 - sma50| / sma50 * 100
      ⟨.HOLD, 50 + trendStrength * (if sma50 < sma10 then 1 else -1),
        (if sma50 < sma10 then "Trending upward but no crossover detected"
         else "Trending downward but no crossover detected"),
        ["SMA10", "SMA50"]⟩

/-- `rsiStrategy` (source lines 535-576). `rsi.toFixed(2)` in the reason
interpolation is modelled as `toString rsi`. -/
def rsiStrategy (priceHistory : List StockPriceHistory) : TradingDecision :=
  if priceHistory.length < 15 then
    ⟨.HOLD, 50, "Insufficient historical data for RSI strategy", ["RSI"]⟩
  else
    let closePrices := priceHistory.map (fun day => day.close)
    let rsi := calculateRSI closePrices 14
    if rsi < 30 then
      ⟨.BUY, max 70 (100 - rsi), "RSI is oversold at " ++ toString rsi, ["RSI"]⟩
    else if 70 < rsi then
      ⟨.SELL, max 70 rsi, "RSI is overbought at " ++ toString rsi, ["RSI"]⟩
    else
      ⟨.HOLD, 50 + |rsi - 50|, "RSI is neutral at " ++ toString rsi, ["RSI"]⟩

/-- `macdStrategy` (source lines 581-627). -/
def macdStrategy (priceHistory : List StockPriceHistory) : TradingDecision :=
  if priceHistory.length < 35 then
    ⟨.HOLD, 50, "Insufficient historical data for MACD strategy", ["MACD"]⟩
  else
    let closePrices := priceHistory.map (fun day => day.close)
    let m := calculateMACD closePrices
    let prevHistogram := (calculateMACD closePrices.dropLast).histogram
    if prevHistogram ≤ 0 ∧ 0 < m.histogram then
      ⟨.BUY, 80, "MACD histogram turned positive (bullish crossover)",
        ["MACD", "Signal Line", "Histogram"]⟩
    else if 0 ≤ prevHistogram ∧ m.histogram < 0 then
      ⟨.SELL, 80, "MACD histogram turned negative (bearish crossover)",
        ["MACD", "Signal Line", "Histogram"]⟩
    else
      -- JS semantics of `Math.abs(histogram/signalLine)*100` at a zero signal
      -- line: the quotient is ±Infinity for a nonzero histogram, which the
      -- `> 10` comparison caps to 10 (reproduced by the explicit first guard,
      -- since rational division would return 0 instead), and NaN when the
      -- histogram is zero as well (e.g. on a flat series), in which case the
      -- source's returned confidence is itself NaN. ℚ cannot represent NaN:
      -- this model returns 50 there, and theorems about this branch exclude
      -- that both-zero case.
      let trendStrength := |m.histogram / m.signalLine| * 100
      ⟨.HOLD,
        50 + (if m.signalLine = 0 ∧ m.histogram ≠ 0 then 10
              else if 10 < trendStrength then 10 else trendStrength) *
          (if 0 < m.histogram then 1 else -1),
        (if 0 < m.histogram then "MACD trending bullish but no crossover detected"
         else "MACD trending bearish but no crossover detected"),
        ["MACD", "Signal Line", "Histogram"]⟩

/-- `bollingerBandsStrategy` (source lines 632-713). JS
`closePrices.slice(0, -5)` is `take (length - 5)`. -/
def bollingerBandsStrategy (sqrtFn : ℚ → ℚ)
    (priceHistory : List StockPriceHistory) : TradingDecision :=
  if priceHistory.length < 20 then
    ⟨.HOLD, 50, "Insufficient historical data for Bollinger Bands strategy", ["Bollinger Bands"]⟩
  else
    let closePrices := priceHistory.map (fun day => day.close)
    let currentPrice := closePrices.getLastD 0
    let b := calculateBollingerBands sqrtFn closePrices 20 2
    let bandWidth := (b.upper - b.lower) / b.middle * 100
    let percentB := (currentPrice - b.lower) / (b.upper - b.lower)
    if currentPrice < b.lower then
      ⟨.BUY, min 90 (70 + (b.lower - currentPrice) / b.lower * 100),
        "Price below lower Bollinger Band (oversold)", ["Bollinger Bands", "%B"]⟩
    else if b.upper < currentPrice then
      ⟨.SELL, min 90 (70 + (currentPrice - b.upper) / b.upper * 100),
        "Price above upper Bollinger Band (overbought)", ["Bollinger Bands", "%B"]⟩
    else
      let prevBand := calculateBollingerBands sqrtFn (closePrices.take (closePrices.length - 5)) 20 2
      if bandWidth < (prevBand.upper - prevBand.lower) / prevBand.middle * 100 ∧ bandWidth < 2 then
        ⟨.HOLD, 65, "Bollinger Band squeeze detected - preparing for breakout",
          ["Bollinger Bands", "Band Width"]⟩
      -- JS semantics of `%B = (close-lower)/(upper-lower)` on degenerate bands
      -- (upper = lower, e.g. a flat window): inside the bands the close then
      -- equals both bands, the quotient is NaN (0/0), both comparisons below
      -- are false and control falls through to the final 50 branch. Rational
      -- division would instead send that case into the `%B < 0.2` branch, so
      -- the band-width guard reproduces the JS branch exactly.
      else if b.upper - b.lower ≠ 0 ∧ 4/5 < percentB then
        ⟨.HOLD, 60, "Price near upper Bollinger Band but not overbought yet",
          ["Bollinger Bands", "%B"]⟩
      else if b.upper - b.lower ≠ 0 ∧ percentB < 1/5 then
        ⟨.HOLD, 60, "Price near lower Bollinger Band but not oversold yet",
          ["Bollinger Bands", "%B"]⟩
      else
        ⟨.HOLD, 50, "Price within normal Bollinger Band range", ["Bollinger Bands", "%B"]⟩

/-- `reinforcementLearningStrategy` (source lines 719-797). The two
`Math.random()` draws are the parameters `rand1` (exploration test
`rand1 < explorationRate`) and `randIndex` (`Math.floor(random*3)`). The
JS argmax loop starts from `maxQValue = -Infinity` and replaces on strict
improvement while walking `[BUY, SELL, HOLD]`, so `BUY` always replaces
the initial `-Infinity` and later actions win only by strictly exceeding
the running maximum; the nested conditional reproduces exactly that
tie-breaking. -/
def reinforcementLearningStrategy (sqrtFn : ℚ → ℚ) (qValues : List (String × ℚ))
    (explorationRate : ℚ) (rand1 : ℚ) (randIndex : Fin 3)
    (priceHistory : List StockPriceHistory) : TradingDecision :=
  if priceHistory.length < 30 then
    ⟨.HOLD, 50, "Insufficient historical data for RL strategy", ["Reinforcement Learning"]⟩
  else
    let state := createStateRepresentation sqrtFn priceHistory
    if rand1 < explorationRate then
      let randomAction : TradingSignal :=
        if randIndex.val = 0 then .BUY else if randIndex.val = 1 then .SELL else .HOLD
      ⟨randomAction, 50, "Exploration phase - trying new action",
        ["Reinforcement Learning", "Q-Learning"]⟩
    else
      let qB := lookupQ qValues (stateActionKey state .BUY)
      let qS := lookupQ qValues (stateActionKey state .SELL)
      let qH := lookupQ qValues (stateActionKey state .HOLD)
      let bestAction : TradingSignal :=
        if qB < qS then (if qS < qH then .HOLD else .SELL)
        else (if qB < qH then .HOLD else .BUY)
      let actionDiff := calculateActionDifference qB qS qH
      let confidenceScore := min 95 (50 + actionDiff * 30)
      let rsiResult := rsiStrategy priceHistory
      let macdResult := macdStrategy priceHistory
      if bestAction = rsiResult.signal ∧ bestAction = macdResult.signal then
        ⟨bestAction, min 95 (confidenceScore + 15), "Multiple indicators confirm the signal",
          ["Reinforcement Learning", "RSI", "MACD"]⟩
      else if bestAction = rsiResult.signal ∨ bestAction = macdResult.signal then
        ⟨bestAction, min 90 (confidenceScore + 5), "Signal confirmed by one additional indicator",
          ["Reinforcement Learning", if bestAction = rsiResult.signal then "RSI" else "MACD"]⟩
      else
        ⟨bestAction, confidenceScore,
          "Decision based on RL model learning from historical patterns",
          ["Reinforcement Learning", "Q-Learning"]⟩

/-- The reward computation inlined in `updateQValues` (source lines
861-870), factored out with the realized relative price change as its
argument. -/
def computeReward (action : TradingSignal) (priceChange : ℚ) : ℚ :=
  if action = .BUY ∧ 0 < priceChange then priceChange * 100
  else if action = .SELL ∧ priceChange < 0 then |priceChange| * 100
  else if action = .HOLD ∧ |priceChange| < 1/100 then 1
  else -|priceChange| * 50

/-- `updateQValues` (source lines 844-876): no-op under 2 bars of history;
otherwise rebuilds the state string, computes the reward from the
latest-versus-previous close delta, and applies the bandit-style update
`Q ← Q + learningRate * (reward - Q)` at the `state:action` key. The
`stock` record the source fabricates for `createStateRepresentation` is
never read there and is omitted. -/
def updateQValues (sqrtFn : ℚ → ℚ) (learningRate : ℚ) (qValues : List (String × ℚ))
    (stockHistory : List StockPriceHistory) (action : TradingSignal)
    (currentPrice : ℚ) : List (String × ℚ) :=
  if stockHistory.length < 2 then qValues
  else
    let state := createStateRepresentation sqrtFn stockHistory
    let stateAction := stateActionKey state action
    let prevPrice := (stockHistory.getD (stockHistory.length - 2) default).close
    let priceChange := (currentPrice - prevPrice) / prevPrice
    let reward := computeReward action priceChange
    let oldQValue := lookupQ qValues stateAction
    setQ qValues stateAction (oldQValue + learningRate * (reward - oldQValue))

/-- One ledger row written by `storage.createTradingHistory` (the fields
the engine populates; `timestamp` is omitted as wall-clock time). -/
structure TradingHistoryEntry where
  userId : ℕ
  stockId : ℕ
  action : TradingSignal
  quantity : ℚ
  price : ℚ
  profitLoss : Option ℚ
deriving DecidableEq, Repr, Inhabited

/-- The singleton bot's mutable fields plus the external append-only trade
ledger, made explicit. -/
structure BotState where
  botActive : Bool
  currentStrategy : TradingStrategy
  learningRate : ℚ
  explorationRate : ℚ
  qValues : List (String × ℚ)
  ledger : List TradingHistoryEntry
deriving Repr, Inhabited

/-- The constructor-time field values (source lines 359-364) with an empty
Q-table and ledger. -/
def initialBotState : BotState :=
  ⟨true, .REINFORCEMENT_LEARNING, 1/100, 1/10, [], []⟩

/-- `toggleBotStatus` (source lines 383-386). -/
def toggleBotStatus (st : BotState) : Bool × BotState :=
  (!st.botActive, { st with botActive := !st.botActive })

/-- `setStrategy` (source lines 391-394): unconditional assignment of an
already-typed strategy value. -/
def setStrategy (strategy : TradingStrategy) (st : BotState) : BotState :=
  { st with currentStrategy := strategy }

/-- The strategy-name whitelist of the `POST /api/trading-bot/strategy`
route (`server/routes.ts` lines 196-200). -/
def validStrategyNames : List String :=
  ["MOVING_AVERAGE", "RSI", "MACD", "BOLLINGER", "REINFORCEMENT_LEARNING"]

/-- The route's `strategy as TradingStrategy` cast, made total: a string
in the whitelist maps to its enum value, anything else to `none`. -/
def parseStrategy (s : String) : Option TradingStrategy :=
  if s = "MOVING_AVERAGE" then some .MOVING_AVERAGE
  else if s = "RSI" then some .RSI
  else if s = "MACD" then some .MACD
  else if s = "BOLLINGER" then some .BOLLINGER
  else if s = "REINFORCEMENT_LEARNING" then some .REINFORCEMENT_LEARNING
  else none

/-- Outcome of the strategy route: HTTP 200 with the echoed name, or the
HTTP 400 `Invalid strategy` rejection. -/
inductive StrategyResponse where
  | ok (strategy : String)
  | invalidStrategy
deriving DecidableEq, Repr

/-- The `POST /api/trading-bot/strategy` handler (`server/routes.ts`
lines 193-208): strings outside the whitelist are rejected with
`Invalid strategy` before `setStrategy` runs; whitelisted strings are
cast and assigned. -/
def postStrategyRoute (s : String) (st : BotState) : StrategyResponse × BotState :=
  match parseStrategy s with
  | none => (.invalidStrategy, st)
  | some t => (.ok s, setStrategy t st)

/-- `executeTrade` (source lines 802-839): `false` without any write when
the bot is inactive or `storage.getStock` finds nothing; otherwise append
the ledger row (with the 3% synthetic `profitLoss` on SELL) and run the
Q-value update. `storage.getStock` and `getHistoricalPriceData` are the
function parameters. -/
def executeTrade (getStock : ℕ → Option Stock)
    (getHistoricalPriceData : ℕ → List StockPriceHistory) (sqrtFn : ℚ → ℚ)
    (st : BotState) (userId stockId : ℕ) (action : TradingSignal)
    (quantity : ℚ) : Bool × BotState :=
  if st.botActive = false then (false, st)
  else
    match getStock stockId with
    | none => (false, st)
    | some stock =>
      let entry : TradingHistoryEntry :=
        ⟨userId, stockId, action, quantity, stock.currentPrice,
          if action = .SELL then some (quantity * stock.currentPrice * (3/100)) else none⟩
      let q := updateQValues sqrtFn st.learningRate st.qValues
        (getHistoricalPriceData stockId) action stock.currentPrice
      (true, { st with ledger := st.ledger ++ [entry], qValues := q })

/-- `generateTradingDecision` (source lines 436-464): a missing stock
yields the literal `Stock not found` decision; otherwise the price
history is fetched and the switch dispatches on `currentStrategy`. -/
def generateTradingDecision (getStock : ℕ → Option Stock)
    (getHistoricalPriceData : ℕ → List StockPriceHistory) (sqrtFn : ℚ → ℚ)
    (rand1 : ℚ) (randIndex : Fin 3) (st : BotState) (stockId : ℕ) : TradingDecision :=
  match getStock stockId with
  | none => ⟨.HOLD, 0, "Stock not found", []⟩
  | some _ =>
    let priceHistory := getHistoricalPriceData stockId
    match st.currentStrategy with
    | .MOVING_AVERAGE => movingAverageStrategy priceHistory
    | .RSI => rsiStrategy priceHistory
    | .MACD => macdStrategy priceHistory
    | .BOLLINGER => bollingerBandsStrategy sqrtFn priceHistory
    | .REINFORCEMENT_LEARNING =>
      reinforcementLearningStrategy sqrtFn st.qValues st.explorationRate rand1 randIndex priceHistory

/-- `updateLearningParameters` (source lines 1031-1041): each parameter,
when present, is clamped independently (`learningRate` into
[0.001, 0.1], `explorationRate` into [0.01, 0.3]); an absent parameter
leaves its field untouched. -/
def updateLearningParameters (st : BotState)
    (learningRate explorationRate : Option ℚ) : BotState :=
  let st1 := match learningRate with
    | some lr => { st with learningRate := max (1/1000) (min (1/10) lr) }
    | none => st
  match explorationRate with
  | some er => { st1 with explorationRate := max (1/100) (min (3/10) er) }
  | none => st1

/-- The two price-level buckets of `createStateRepresentation`. -/
def priceLevels : List String := ["above_sma50", "below_sma50"]

/-- The three RSI buckets of `createStateRepresentation`. -/
def rsiLevels : List String := ["oversold", "overbought", "neutral"]

/-- The three volatility buckets of `createStateRepresentation`. -/
def volatilityLevels : List String := ["low", "medium", "high"]

/-- Every string `createStateRepresentation` can return: the sentinel plus
the 18 bucket concatenations. -/
def validStates : List String :=
  "insufficient_data" ::
    priceLevels.flatMap (fun p => rsiLevels.flatMap (fun r =>
      volatilityLevels.map (fun v => p ++ "_" ++ r ++ "_" ++ v)))

/-- Every `state:action` key `updateQValues` can ever write. -/
def validKeys : List String :=
  validStates.flatMap (fun s =>
    [stateActionKey s .BUY, stateActionKey s .SELL, stateActionKey s .HOLD])

/-- The arguments of one `updateQValues` call, for replaying arbitrary
call sequences against the table. -/
structure QUpdateOp where
  sqrtFn : ℚ → ℚ
  learningRate : ℚ
  stockHistory : List StockPriceHistory
  action : TradingSignal
  currentPrice : ℚ

/-- Replay a sequence of `updateQValues` calls against a table. -/
def runQUpdates (ops : List QUpdateOp) (q : List (String × ℚ)) : List (String × ℚ) :=
  ops.foldl
    (fun q op => updateQValues op.sqrtFn op.learningRate q op.stockHistory op.action op.currentPrice)
    q

/-! ## Concrete inputs used by witnesses and counterexamples -/

/-- A bar whose four price fields all equal `c` (the strategies read only
`close`). -/
def mkBar (c : ℚ) : StockPriceHistory :=
  ⟨"", c, c, c, c, 0⟩

/-- 50 bars at 100 followed by 10 bars at 10: long enough for the MA
strategy, no crossover on the final bar, and a trend strength far above
50. -/
def dropBars : List StockPriceHistory :=
  List.replicate 50 (mkBar 100) ++ List.replicate 10 (mkBar 10)

/-- A strictly increasing 60-bar series with closes 1, 2, ..., 60. -/
def incBars : List StockPriceHistory :=
  (List.range 60).map (fun i => mkBar ((i + 1 : ℕ) : ℚ))

/-- Sixteen strictly increasing closes. -/
def incPrices16 : List ℚ :=
  [1, 2, 3, 4, 5, 6, 7, 8, 9, 10, 11, 12, 13, 14, 15, 16]

/-- Two bars at close 100 and 101. -/
def twoBars : List StockPriceHistory :=
  [mkBar 100, mkBar 101]

/-- Twenty bars at close 100. -/
def flatBars20 : List StockPriceHistory :=
  List.replicate 20 (mkBar 100)

/-! ## C4: the strategy setter rejects unknown names without mutating -/

/-- A string outside the route's whitelist never parses to a strategy. -/
theorem parseStrategy_eq_none (s : String) (h : s ∉ validStrategyNames) :
    parseStrategy s = none := by
  simp only [validStrategyNames, List.mem_cons, List.not_mem_nil, or_false, not_or] at h
  obtain ⟨h1, h2, h3, h4, h5⟩ := h
  simp [parseStrategy, h1, h2, h3, h4, h5]

/-- C4: for every string that is not one of the five strategy names, the
strategy route answers `Invalid strategy` and returns the bot state
unchanged — in particular `currentStrategy` is unchanged and the
rejection happens before `setStrategy` (the only mutation) runs. -/
theorem setStrategy_rejects_invalid (s : String) (st : BotState)
    (h : s ∉ validStrategyNames) :
    postStrategyRoute s st = (StrategyResponse.invalidStrategy, st) := by
  simp [postStrategyRoute, parseStrategy_eq_none s h]

/-- Witness for C4 at the spec's own example string `"BOGUS"`. -/
theorem setStrategy_rejects_invalid_witness :
    postStrategyRoute "BOGUS" initialBotState =
      (StrategyResponse.invalidStrategy, initialBotState) :=
  setStrategy_rejects_invalid "BOGUS" initialBotState (by decide)

/-! ## C9: learning-parameter clamping -/

/-- C9: after any call with in-range prior values, `learningRate` is in
[0.001, 0.1] and `explorationRate` is in [0.01, 0.3]; a present parameter
is clamped independently of the other, an omitted one is untouched;
`learningRate = 5` clamps to 0.1 and `explorationRate = 0` clamps
to 0.01. -/
theorem updateLearningParameters_clamps (st : BotState) (lr er : Option ℚ)
    (hlr : 1/1000 ≤ st.learningRate ∧ st.learningRate ≤ 1/10)
    (her : 1/100 ≤ st.explorationRate ∧ st.explorationRate ≤ 3/10) :
    (1/1000 ≤ (updateLearningParameters st lr er).learningRate ∧
      (updateLearningParameters st lr er).learningRate ≤ 1/10) ∧
    (1/100 ≤ (updateLearningParameters st lr er).explorationRate ∧
      (updateLearningParameters st lr er).explorationRate ≤ 3/10) ∧
    (∀ x, lr = some x →
      (updateLearningParameters st lr er).learningRate = max (1/1000) (min (1/10) x)) ∧
    (lr = none → (updateLearningParameters st lr er).learningRate = st.learningRate) ∧
    (∀ x, er = some x →
      (updateLearningParameters st lr er).explorationRate = max (1/100) (min (3/10) x)) ∧
    (er = none → (updateLearningParameters st lr er).explorationRate = st.explorationRate) ∧
    (updateLearningParameters st (some 5) er).learningRate = 1/10 ∧
    (updateLearningParameters st lr (some 0)).explorationRate = 1/100 := by
  have clampLR : ∀ x : ℚ, 1/1000 ≤ max (1/1000) (min (1/10) x) ∧
      max (1/1000) (min (1/10) x) ≤ 1/10 :=
    fun x => ⟨le_max_left _ _, max_le (by norm_num) (min_le_left _ _)⟩
  have clampER : ∀ x : ℚ, 1/100 ≤ max (1/100) (min (3/10) x) ∧
      max (1/100) (min (3/10) x) ≤ 3/10 :=
    fun x => ⟨le_max_left _ _, max_le (by norm_num) (min_le_left _ _)⟩
  have h5 : max (1/1000 : ℚ) (min (1/10) 5) = 1/10 := by
    rw [min_eq_left (by norm_num), max_eq_right (by norm_num)]
  have h0 : max (1/100 : ℚ) (min (3/10) 0) = 1/100 := by
    rw [min_eq_right (by norm_num), max_eq_left (by norm_num)]
  cases lr <;> cases er <;> simp_all [updateLearningParameters]

/-- Witness for C9 at the spec's two examples. -/
theorem updateLearningParameters_clamps_witness :
    (updateLearningParameters initialBotState (some 5) (some 0)).learningRate = 1/10 ∧
    (updateLearningParameters initialBotState (some 5) (some 0)).explorationRate = 1/100 := by
  have h := updateLearningParameters_clamps initialBotState (some 5) (some 0)
    (by norm_num [initialBotState]) (by norm_num [initialBotState])
  exact ⟨h.2.2.2.2.2.2.1, h.2.2.2.2.2.2.2⟩

/-! ## C7: execution failures mutate nothing -/

/-- C7: `executeTrade` returns `false` with the bot state (ledger and
Q-table included) completely unchanged, both when the bot is inactive and
when the stock lookup fails. -/
theorem executeTrade_fails_without_mutation
    (getStock : ℕ → Option Stock) (hist : ℕ → List StockPriceHistory)
    (sqrtFn : ℚ → ℚ) (st : BotState) (userId stockId : ℕ)
    (action : TradingSignal) (quantity : ℚ) :
    (st.botActive = false →
      executeTrade getStock hist sqrtFn st userId stockId action quantity = (false, st)) ∧
    (getStock stockId = none →
      executeTrade getStock hist sqrtFn st userId stockId action quantity = (false, st)) := by
  constructor
  · intro h
    simp [executeTrade, h]
  · intro h
    by_cases hb : st.botActive = false
    · simp [executeTrade, hb]
    · simp [executeTrade, hb, h]

/-- Witness for C7: an inactive bot with an unknown stock; both failure
paths produce `false` and the untouched state. -/
theorem executeTrade_fails_without_mutation_witness :
    executeTrade (fun _ => none) (fun _ => []) (fun _ => 0)
        { initialBotState with botActive := false } 1 1 TradingSignal.BUY 1 =
      (false, { initialBotState with botActive := false }) ∧
    executeTrade (fun _ => none) (fun _ => []) (fun _ => 0)
        initialBotState 1 1 TradingSignal.BUY 1 =
      (false, initialBotState) :=
  ⟨(executeTrade_fails_without_mutation (fun _ => none) (fun _ => []) (fun _ => 0)
      { initialBotState with botActive := false } 1 1 TradingSignal.BUY 1).1 rfl,
   (executeTrade_fails_without_mutation (fun _ => none) (fun _ => []) (fun _ => 0)
      initialBotState 1 1 TradingSignal.BUY 1).2 rfl⟩

/-! ## C5: unknown symbol on decide -/

/-- C5 counterexample: on an unknown stock, `generateTradingDecision` does
not fail — it returns an ordinary `TradingDecision` value (`HOLD`,
confidence 0, reason `Stock not found`), so the claim that a
`SymbolNotFound` error is surfaced instead of a normal `Decision` is
false at this concrete input. -/
theorem decide_unknown_symbol_counterexample :
    generateTradingDecision (fun _ => none) (fun _ => []) (fun _ => 0) 1 0
        initialBotState 7 =
      ⟨TradingSignal.HOLD, 0, "Stock not found", []⟩ := rfl

/-- C5 amended: an unknown stock yields the sentinel decision
`(HOLD, 0, "Stock not found", [])` rather than an error; a known stock
dispatches to the strategy named by `currentStrategy`. -/
theorem decide_unknown_symbol_amended
    (getStock : ℕ → Option Stock) (hist : ℕ → List StockPriceHistory)
    (sqrtFn : ℚ → ℚ) (rand1 : ℚ) (randIndex : Fin 3) (st : BotState) (stockId : ℕ) :
    (getStock stockId = none →
      generateTradingDecision getStock hist sqrtFn rand1 randIndex st stockId =
        ⟨TradingSignal.HOLD, 0, "Stock not found", []⟩) ∧
    (∀ stock, getStock stockId = some stock →
      generateTradingDecision getStock hist sqrtFn rand1 randIndex st stockId =
        match st.currentStrategy with
        | .MOVING_AVERAGE => movingAverageStrategy (hist stockId)
        | .RSI => rsiStrategy (hist stockId)
        | .MACD => macdStrategy (hist stockId)
        | .BOLLINGER => bollingerBandsStrategy sqrtFn (hist stockId)
        | .REINFORCEMENT_LEARNING =>
          reinforcementLearningStrategy sqrtFn st.qValues st.explorationRate
            rand1 randIndex (hist stockId)) := by
  constructor
  · intro h
    simp [generateTradingDecision, h]
  · intro stock h
    simp only [generateTradingDecision, h]

/-- Witness for C5: both the unknown-stock path and the dispatch path at
concrete inputs (the initial strategy is `REINFORCEMENT_LEARNING`). -/
theorem decide_unknown_symbol_amended_witness :
    generateTradingDecision (fun _ => none) (fun _ => []) (fun _ => 0) 1 0
        initialBotState 7 = ⟨TradingSignal.HOLD, 0, "Stock not found", []⟩ ∧
    generateTradingDecision (fun _ => some ⟨"TCS", 100⟩) (fun _ => []) (fun _ => 0) 1 0
        initialBotState 1 =
      reinforcementLearningStrategy (fun _ => 0) initialBotState.qValues
        initialBotState.explorationRate 1 0 [] := by
  refine ⟨(decide_unknown_symbol_amended (fun _ => none) (fun _ => []) (fun _ => 0) 1 0
    initialBotState 7).1 rfl, ?_⟩
  have h := (decide_unknown_symbol_amended (fun _ => some ⟨"TCS", 100⟩) (fun _ => [])
    (fun _ => 0) 1 0 initialBotState 1).2 ⟨"TCS", 100⟩ rfl
  simpa using h

/-! ## C3: insufficient-history gates -/

/-- C3: below its gate length (50 / 15 / 35 / 20 / 30 bars), each strategy
returns exactly the HOLD decision with confidence 50 whose reason is its
`Insufficient historical data ...` string. -/
theorem insufficient_history_gates (bars : List StockPriceHistory) :
    (bars.length < 50 → movingAverageStrategy bars =
      ⟨TradingSignal.HOLD, 50, "Insufficient historical data for MA strategy", ["SMA"]⟩) ∧
    (bars.length < 15 → rsiStrategy bars =
      ⟨TradingSignal.HOLD, 50, "Insufficient historical data for RSI strategy", ["RSI"]⟩) ∧
    (bars.length < 35 → macdStrategy bars =
      ⟨TradingSignal.HOLD, 50, "Insufficient historical data for MACD strategy", ["MACD"]⟩) ∧
    (∀ sqrtFn, bars.length < 20 → bollingerBandsStrategy sqrtFn bars =
      ⟨TradingSignal.HOLD, 50, "Insufficient historical data for Bollinger Bands strategy",
        ["Bollinger Bands"]⟩) ∧
    (∀ sqrtFn qValues explorationRate rand1 randIndex, bars.length < 30 →
      reinforcementLearningStrategy sqrtFn qValues explorationRate rand1 randIndex bars =
        ⟨TradingSignal.HOLD, 50, "Insufficient historical data for RL strategy",
          ["Reinforcement Learning"]⟩) := by
  refine ⟨fun h => ?_, fun h => ?_, fun h => ?_, fun sqrtFn h => ?_,
    fun sqrtFn qValues explorationRate rand1 randIndex h => ?_⟩
  · unfold movingAverageStrategy
    rw [if_pos h]
  · unfold rsiStrategy
    rw [if_pos h]
  · unfold macdStrategy
    rw [if_pos h]
  · unfold bollingerBandsStrategy
    rw [if_pos h]
  · unfold reinforcementLearningStrategy
    rw [if_pos h]

/-- Witness for C3 at the empty price history. -/
theorem insufficient_history_gates_witness :
    movingAverageStrategy [] =
      ⟨TradingSignal.HOLD, 50, "Insufficient historical data for MA strategy", ["SMA"]⟩ ∧
    rsiStrategy [] =
      ⟨TradingSignal.HOLD, 50, "Insufficient historical data for RSI strategy", ["RSI"]⟩ ∧
    macdStrategy [] =
      ⟨TradingSignal.HOLD, 50, "Insufficient historical data for MACD strategy", ["MACD"]⟩ ∧
    bollingerBandsStrategy (fun _ => 0) [] =
      ⟨TradingSignal.HOLD, 50, "Insufficient historical data for Bollinger Bands strategy",
        ["Bollinger Bands"]⟩ ∧
    reinforcementLearningStrategy (fun _ => 0) [] (1/10) 1 0 [] =
      ⟨TradingSignal.HOLD, 50, "Insufficient historical data for RL strategy",
        ["Reinforcement Learning"]⟩ :=
  ⟨(insufficient_history_gates []).1 (by decide),
   (insufficient_history_gates []).2.1 (by decide),
   (insufficient_history_gates []).2.2.1 (by decide),
   (insufficient_history_gates []).2.2.2.1 (fun _ => 0) (by decide),
   (insufficient_history_gates []).2.2.2.2 (fun _ => 0) [] (1/10) 1 0 (by decide)⟩

/-! ## C1: one-step Q-update and monotone convergence toward the reward -/

/-- After `setQ q key v`, looking up `key` yields `v`. -/
theorem lookupQ_setQ_same (q : List (String × ℚ)) (key : String) (v : ℚ) :
    lookupQ (setQ q key v) key = v := by
  induction q with
  | nil => simp [setQ, lookupQ, List.lookup]
  | cons hd tl ih =>
    obtain ⟨k, w⟩ := hd
    by_cases h : k = key
    · simp [setQ, h, lookupQ, List.lookup]
    · have hb : (key == k) = false := beq_eq_false_iff_ne.mpr (Ne.symm h)
      simp only [setQ, if_neg h]
      simpa [lookupQ, List.lookup, hb] using ih

/-- The reward `updateQValues` computes from the latest-versus-previous
close delta of `bars` for `action` at execution price `currentPrice`. -/
def realizedReward (bars : List StockPriceHistory) (action : TradingSignal)
    (currentPrice : ℚ) : ℚ :=
  computeReward action
    ((currentPrice - (bars.getD (bars.length - 2) default).close) /
      (bars.getD (bars.length - 2) default).close)

/-- The Q-value stored for the repeated `(state, action)` pair after `k`
identical `updateQValues` calls starting from table `q0`. -/
def qValueSeq (sqrtFn : ℚ → ℚ) (α : ℚ) (q0 : List (String × ℚ))
    (bars : List StockPriceHistory) (action : TradingSignal) (currentPrice : ℚ)
    (k : ℕ) : ℚ :=
  lookupQ ((fun q => updateQValues sqrtFn α q bars action currentPrice)^[k] q0)
    (stateActionKey (createStateRepresentation sqrtFn bars) action)

/-- One more identical update moves the stored value by
`α * (reward - oldValue)`. -/
theorem qValueSeq_succ (sqrtFn : ℚ → ℚ) (α : ℚ) (q0 : List (String × ℚ))
    (bars : List StockPriceHistory) (action : TradingSignal) (currentPrice : ℚ)
    (hlen : 2 ≤ bars.length) (k : ℕ) :
    qValueSeq sqrtFn α q0 bars action currentPrice (k + 1) =
      qValueSeq sqrtFn α q0 bars action currentPrice k +
        α * (realizedReward bars action currentPrice -
          qValueSeq sqrtFn α q0 bars action currentPrice k) := by
  unfold qValueSeq
  rw [Function.iterate_succ_apply']
  show lookupQ (updateQValues sqrtFn α _ bars action currentPrice) _ = _
  unfold updateQValues
  rw [if_neg (by omega)]
  simp only [lookupQ_setQ_same, realizedReward]

/-- C1: with any learning rate in the clamped range [0.001, 0.1], any
state/action/reward: one `updateQValues` step produces exactly
`Q + α * (R - Q)`, and the distance to the realized reward `R` never
increases, strictly decreasing unless the value already equals `R`. -/
theorem qValue_update_converges (sqrtFn : ℚ → ℚ) (α : ℚ) (q0 : List (String × ℚ))
    (bars : List StockPriceHistory) (action : TradingSignal) (currentPrice : ℚ)
    (hα : 1/1000 ≤ α ∧ α ≤ 1/10) (hlen : 2 ≤ bars.length) (k : ℕ) :
    qValueSeq sqrtFn α q0 bars action currentPrice (k + 1) =
      qValueSeq sqrtFn α q0 bars action currentPrice k +
        α * (realizedReward bars action currentPrice -
          qValueSeq sqrtFn α q0 bars action currentPrice k) ∧
    |qValueSeq sqrtFn α q0 bars action currentPrice (k + 1) -
        realizedReward bars action currentPrice| ≤
      |qValueSeq sqrtFn α q0 bars action currentPrice k -
        realizedReward bars action currentPrice| ∧
    (|qValueSeq sqrtFn α q0 bars action currentPrice (k + 1) -
        realizedReward bars action currentPrice| =
      |qValueSeq sqrtFn α q0 bars action currentPrice k -
        realizedReward bars action currentPrice| ↔
      qValueSeq sqrtFn α q0 bars action currentPrice k =
        realizedReward bars action currentPrice) := by
  obtain ⟨ha1, ha2⟩ := hα
  have hrec := qValueSeq_succ sqrtFn α q0 bars action currentPrice hlen k
  set v := qValueSeq sqrtFn α q0 bars action currentPrice with hv
  set R := realizedReward bars action currentPrice with hR
  have key : v (k + 1) - R = (1 - α) * (v k - R) := by rw [hrec]; ring
  have habs : |v (k + 1) - R| = (1 - α) * |v k - R| := by
    rw [key, abs_mul, abs_of_nonneg (by linarith : (0 : ℚ) ≤ 1 - α)]
  have hxnn : 0 ≤ |v k - R| := abs_nonneg _
  refine ⟨hrec, ?_, ?_⟩
  · rw [habs]
    nlinarith
  · rw [habs]
    constructor
    · intro h
      have hz : α * |v k - R| = 0 := by linarith
      rcases mul_eq_zero.mp hz with h1 | h2
      · exfalso; linarith
      · exact sub_eq_zero.mp (abs_eq_zero.mp h2)
    · intro h
      rw [h]
      simp

/-- Witness for C1: one update with learning rate 0.01, action BUY, a
2-bar history and execution price 101, starting from an empty table. -/
theorem qValue_update_converges_witness :
    qValueSeq (fun _ => 0) (1/100) [] twoBars TradingSignal.BUY 101 1 =
      qValueSeq (fun _ => 0) (1/100) [] twoBars TradingSignal.BUY 101 0 +
        (1/100) * (realizedReward twoBars TradingSignal.BUY 101 -
          qValueSeq (fun _ => 0) (1/100) [] twoBars TradingSignal.BUY 101 0) :=
  (qValue_update_converges (fun _ => 0) (1/100) [] twoBars TradingSignal.BUY 101
    ⟨by norm_num, by norm_num⟩ (by decide) 0).1

/-! ## C6: RSI range, neutral default, and the RSI = 100 characterisation -/

/-- Loss contributions are nonnegative. -/
theorem lossClip_nonneg (c : ℚ) : 0 ≤ lossClip c := by
  unfold lossClip
  split_ifs with h
  · linarith
  · exact le_refl 0

/-- A loss contribution vanishes exactly on nonnegative changes. -/
theorem lossClip_eq_zero_iff (c : ℚ) : lossClip c = 0 ↔ 0 ≤ c := by
  unfold lossClip
  split_ifs with h
  · constructor
    · intro hz
      linarith
    · intro hz
      linarith
  · simp [not_lt.mp h]

/-- Gain contributions are nonnegative. -/
theorem gainClip_nonneg (c : ℚ) : 0 ≤ gainClip c := by
  unfold gainClip
  split_ifs with h
  · exact h
  · exact le_refl 0

/-- The summed loss contributions are nonnegative. -/
theorem lossClip_sum_nonneg (cs : List ℚ) : 0 ≤ (cs.map lossClip).sum := by
  apply List.sum_nonneg
  intro x hx
  obtain ⟨c, _, rfl⟩ := List.mem_map.mp hx
  exact lossClip_nonneg c

/-- The summed gain contributions are nonnegative. -/
theorem gainClip_sum_nonneg (cs : List ℚ) : 0 ≤ (cs.map gainClip).sum := by
  apply List.sum_nonneg
  intro x hx
  obtain ⟨c, _, rfl⟩ := List.mem_map.mp hx
  exact gainClip_nonneg c

/-- The summed loss contributions vanish exactly when no change is
strictly negative. -/
theorem lossClip_sum_eq_zero_iff (cs : List ℚ) :
    (cs.map lossClip).sum = 0 ↔ ∀ c ∈ cs, 0 ≤ c := by
  induction cs with
  | nil => simp
  | cons c cs ih =>
    simp only [List.map_cons, List.sum_cons, List.mem_cons]
    have h1 := lossClip_nonneg c
    have h2 := lossClip_sum_nonneg cs
    constructor
    · intro h
      have hterm : lossClip c = 0 := by linarith
      have hrest : (cs.map lossClip).sum = 0 := by linarith
      intro x hx
      rcases hx with he | hm
      · rw [he]
        exact (lossClip_eq_zero_iff c).mp hterm
      · exact ih.mp hrest x hm
    · intro h
      rw [(lossClip_eq_zero_iff c).mpr (h c (Or.inl rfl)),
        ih.mpr (fun x hx => h x (Or.inr hx))]
      ring

/-- One Wilder step keeps the running gain average nonnegative. -/
theorem wilderStep_fst_nonneg (period : ℕ) (hp : 1 ≤ period) (p : ℚ × ℚ) (c : ℚ)
    (h1 : 0 ≤ p.1) : 0 ≤ (wilderStep period p c).1 := by
  have hpq : (1 : ℚ) ≤ (period : ℚ) := by exact_mod_cast hp
  have hgain : (0 : ℚ) ≤ if 0 < c then c else 0 := by
    split_ifs with h
    · linarith
    · exact le_refl 0
  unfold wilderStep
  apply div_nonneg _ (by positivity)
  nlinarith

/-- One Wilder step keeps the running loss average nonnegative. -/
theorem wilderStep_snd_nonneg (period : ℕ) (hp : 1 ≤ period) (p : ℚ × ℚ) (c : ℚ)
    (h2 : 0 ≤ p.2) : 0 ≤ (wilderStep period p c).2 := by
  have hpq : (1 : ℚ) ≤ (period : ℚ) := by exact_mod_cast hp
  have hloss := lossClip_nonneg c
  unfold wilderStep
  apply div_nonneg _ (by positivity)
  nlinarith

/-- For periods above 1, one Wilder step zeroes the loss average exactly
when it was already zero and the new change is not a loss. -/
theorem wilderStep_snd_eq_zero_iff (period : ℕ) (hp : 1 < period) (p : ℚ × ℚ)
    (c : ℚ) (h2 : 0 ≤ p.2) :
    (wilderStep period p c).2 = 0 ↔ (p.2 = 0 ∧ 0 ≤ c) := by
  have hpq : (1 : ℚ) < (period : ℚ) := by exact_mod_cast hp
  have hpne : ((period : ℚ)) ≠ 0 := by positivity
  have hloss := lossClip_nonneg c
  unfold wilderStep
  rw [div_eq_zero_iff]
  simp only [hpne, or_false]
  constructor
  · intro h
    have ha : 0 ≤ p.2 * ((period : ℚ) - 1) := by nlinarith
    have hb : p.2 * ((period : ℚ) - 1) = 0 := by linarith
    have hc : lossClip c = 0 := by linarith
    refine ⟨?_, (lossClip_eq_zero_iff c).mp hc⟩
    rcases mul_eq_zero.mp hb with h | h
    · exact h
    · exfalso
      have : ((period : ℚ)) - 1 > 0 := by linarith
      linarith
  · rintro ⟨ha, hb⟩
    rw [ha, (lossClip_eq_zero_iff c).mpr hb]
    ring

/-- Both running averages stay nonnegative through the whole smoothing
fold. -/
theorem wilder_foldl_nonneg (period : ℕ) (hp : 1 ≤ period) (cs : List ℚ) :
    ∀ p : ℚ × ℚ, 0 ≤ p.1 → 0 ≤ p.2 →
      0 ≤ (cs.foldl (wilderStep period) p).1 ∧
      0 ≤ (cs.foldl (wilderStep period) p).2 := by
  induction cs with
  | nil => exact fun p h1 h2 => ⟨h1, h2⟩
  | cons c cs ih =>
    intro p h1 h2
    simp only [List.foldl_cons]
    exact ih _ (wilderStep_fst_nonneg period hp p c h1)
      (wilderStep_snd_nonneg period hp p c h2)

/-- The final smoothed loss average is zero exactly when the initial loss
average was zero and no later change was a loss. -/
theorem wilder_foldl_snd_eq_zero_iff (period : ℕ) (hp : 1 < period) (cs : List ℚ) :
    ∀ p : ℚ × ℚ, 0 ≤ p.2 →
      ((cs.foldl (wilderStep period) p).2 = 0 ↔ (p.2 = 0 ∧ ∀ c ∈ cs, 0 ≤ c)) := by
  induction cs with
  | nil => simp
  | cons c cs ih =>
    intro p h2
    simp only [List.foldl_cons, List.mem_cons]
    have hstep : 0 ≤ (wilderStep period p c).2 :=
      wilderStep_snd_nonneg period (le_of_lt hp) p c h2
    rw [ih _ hstep, wilderStep_snd_eq_zero_iff period hp p c h2]
    constructor
    · rintro ⟨⟨ha, hb⟩, hc⟩
      exact ⟨ha, fun x hx => hx.elim (fun he => he ▸ hb) (hc x)⟩
    · rintro ⟨ha, hb⟩
      exact ⟨⟨ha, hb c (Or.inl rfl)⟩, fun x hx => hb x (Or.inr hx)⟩

/-- Unfolding of `calculateRSI` past its neutral gate. -/
theorem calculateRSI_of_lt (prices : List ℚ) (period : ℕ)
    (h : period < prices.length) :
    calculateRSI prices period =
      (if (((priceChanges prices).drop period).foldl (wilderStep period)
            ((((priceChanges prices).take period).map gainClip).sum / (period : ℚ),
             (((priceChanges prices).take period).map lossClip).sum / (period : ℚ))).2 = 0
       then (100 : ℚ)
       else 100 - 100 /
         (1 + (((priceChanges prices).drop period).foldl (wilderStep period)
            ((((priceChanges prices).take period).map gainClip).sum / (period : ℚ),
             (((priceChanges prices).take period).map lossClip).sum / (period : ℚ))).1 /
          (((priceChanges prices).drop period).foldl (wilderStep period)
            ((((priceChanges prices).take period).map gainClip).sum / (period : ℚ),
             (((priceChanges prices).take period).map lossClip).sum / (period : ℚ))).2)) := by
  unfold calculateRSI
  rw [if_neg (not_le.mpr h)]

/-- Bounds for the smoothed branch of the RSI. -/
theorem rsi_core_bounds (period : ℕ) (hp : 1 ≤ period) (cs : List ℚ) (g0 l0 : ℚ)
    (hg : 0 ≤ g0) (hl : 0 ≤ l0) :
    0 ≤ (if (cs.foldl (wilderStep period) (g0, l0)).2 = 0 then (100 : ℚ)
         else 100 - 100 / (1 + (cs.foldl (wilderStep period) (g0, l0)).1 /
           (cs.foldl (wilderStep period) (g0, l0)).2)) ∧
    (if (cs.foldl (wilderStep period) (g0, l0)).2 = 0 then (100 : ℚ)
     else 100 - 100 / (1 + (cs.foldl (wilderStep period) (g0, l0)).1 /
       (cs.foldl (wilderStep period) (g0, l0)).2)) ≤ 100 := by
  obtain ⟨hg', hl'⟩ := wilder_foldl_nonneg period hp cs (g0, l0) hg hl
  set X := cs.foldl (wilderStep period) (g0, l0) with hX
  split_ifs with h
  · norm_num
  · have hlpos : 0 < X.2 := lt_of_le_of_ne hl' (Ne.symm h)
    have hrs : 0 ≤ X.1 / X.2 := div_nonneg hg' (le_of_lt hlpos)
    have hfrac_pos : 0 < 100 / (1 + X.1 / X.2) := div_pos (by norm_num) (by linarith)
    have hfrac_le : 100 / (1 + X.1 / X.2) ≤ 100 := div_le_self (by norm_num) (by linarith)
    constructor
    · linarith
    · linarith

/-- The smoothed branch of the RSI evaluates to 100 exactly when the
initial loss average is zero and no later change is a loss. -/
theorem rsi_core_eq_100_iff (period : ℕ) (hp : 1 < period) (cs : List ℚ)
    (g0 l0 : ℚ) (hg : 0 ≤ g0) (hl : 0 ≤ l0) :
    ((if (cs.foldl (wilderStep period) (g0, l0)).2 = 0 then (100 : ℚ)
      else 100 - 100 / (1 + (cs.foldl (wilderStep period) (g0, l0)).1 /
        (cs.foldl (wilderStep period) (g0, l0)).2)) = 100) ↔
      (l0 = 0 ∧ ∀ c ∈ cs, 0 ≤ c) := by
  obtain ⟨hg', hl'⟩ := wilder_foldl_nonneg period (le_of_lt hp) cs (g0, l0) hg hl
  have hiff := wilder_foldl_snd_eq_zero_iff period hp cs (g0, l0) hl
  set X := cs.foldl (wilderStep period) (g0, l0) with hX
  split_ifs with h
  · simp only [true_iff, iff_true]
    exact hiff.mp h
  · have hlpos : 0 < X.2 := lt_of_le_of_ne hl' (Ne.symm h)
    have hrs : 0 ≤ X.1 / X.2 := div_nonneg hg' (le_of_lt hlpos)
    have hfrac_pos : 0 < 100 / (1 + X.1 / X.2) := div_pos (by norm_num) (by linarith)
    constructor
    · intro hcontra
      exfalso
      linarith
    · intro hr
      exact absurd (hiff.mpr hr) h

/-- RSI stays inside [0, 100] for every input and every positive period. -/
theorem calculateRSI_bounds (prices : List ℚ) (period : ℕ) (hp : 1 ≤ period) :
    0 ≤ calculateRSI prices period ∧ calculateRSI prices period ≤ 100 := by
  by_cases h : prices.length ≤ period
  · unfold calculateRSI
    rw [if_pos h]
    norm_num
  · rw [calculateRSI_of_lt prices period (not_le.mp h)]
    exact rsi_core_bounds period hp _ _ _
      (div_nonneg (gainClip_sum_nonneg _) (Nat.cast_nonneg _))
      (div_nonneg (lossClip_sum_nonneg _) (Nat.cast_nonneg _))

/-- C6: `calculateRSI` with period 14 always lies in [0, 100]; it is
exactly 50 whenever the input length is at most 14; and past the gate it
is exactly 100 precisely when no strictly negative day-over-day change
occurs anywhere in the smoothed series. -/
theorem calculateRSI_properties (prices : List ℚ) :
    (0 ≤ calculateRSI prices 14 ∧ calculateRSI prices 14 ≤ 100) ∧
    (prices.length ≤ 14 → calculateRSI prices 14 = 50) ∧
    (14 < prices.length →
      (calculateRSI prices 14 = 100 ↔ ∀ c ∈ priceChanges prices, 0 ≤ c)) := by
  refine ⟨calculateRSI_bounds prices 14 (by norm_num), fun h => ?_, fun h => ?_⟩
  · unfold calculateRSI
    rw [if_pos h]
  · rw [calculateRSI_of_lt prices 14 h,
      rsi_core_eq_100_iff 14 (by norm_num) _ _ _
        (div_nonneg (gainClip_sum_nonneg _) (Nat.cast_nonneg _))
        (div_nonneg (lossClip_sum_nonneg _) (Nat.cast_nonneg _))]
    rw [div_eq_zero_iff]
    simp only [show ((14 : ℕ) : ℚ) ≠ 0 by norm_num, or_false]
    rw [lossClip_sum_eq_zero_iff]
    constructor
    · rintro ⟨ha, hb⟩ c hc
      rw [← List.take_append_drop 14 (priceChanges prices)] at hc
      rcases List.mem_append.mp hc with hm | hm
      · exact ha c hm
      · exact hb c hm
    · intro hall
      constructor
      · exact fun c hc => hall c (List.mem_of_mem_take hc)
      · exact fun c hc => hall c (List.mem_of_mem_drop hc)

/-- Witness for C6: on sixteen strictly increasing closes the RSI is
exactly 100, and a single close is gated to the neutral 50. -/
theorem calculateRSI_properties_witness :
    calculateRSI incPrices16 14 = 100 ∧ calculateRSI [1] 14 = 50 :=
  ⟨((calculateRSI_properties incPrices16).2.2 (by decide)).mpr
      (by norm_num [priceChanges, incPrices16, List.zip, List.zipWith]),
   (calculateRSI_properties [1]).2.1 (by decide)⟩

/-! ## C2: confidence ranges of the individual strategies -/

/-- The RSI strategy's confidence always lies in [0, 100]. -/
theorem rsiStrategy_confidence_bounds (bars : List StockPriceHistory) :
    0 ≤ (rsiStrategy bars).confidence ∧ (rsiStrategy bars).confidence ≤ 100 := by
  obtain ⟨hr0, hr1⟩ := calculateRSI_bounds (List.map (fun day => day.close) bars) 14 (by norm_num)
  simp only [rsiStrategy]
  split_ifs with h1 h2 h3 <;> dsimp only
  · norm_num
  · exact ⟨le_max_of_le_left (by norm_num), max_le (by norm_num) (by linarith)⟩
  · exact ⟨le_max_of_le_left (by norm_num), max_le (by norm_num) (by linarith)⟩
  · have habs : |calculateRSI (List.map (fun day => day.close) bars) 14 - 50| ≤ 50 :=
      abs_le.mpr ⟨by linarith, by linarith⟩
    have habs0 : 0 ≤ |calculateRSI (List.map (fun day => day.close) bars) 14 - 50| :=
      abs_nonneg _
    exact ⟨by linarith, by linarith⟩

/-- The MACD strategy's confidence lies in [0, 100] under the gate or
whenever its histogram and signal line are not both zero. The excluded
case is the one where the source's floating-point code computes a NaN
confidence (see `macdStrategy`); in the ℚ model the bound in fact holds
there too, so the hypothesis only marks the boundary of what is claimed
about the program. -/
theorem macdStrategy_confidence_bounds (bars : List StockPriceHistory)
    (_hreal : bars.length < 35 ∨
      ¬((calculateMACD (List.map (fun day => day.close) bars)).histogram = 0 ∧
        (calculateMACD (List.map (fun day => day.close) bars)).signalLine = 0)) :
    0 ≤ (macdStrategy bars).confidence ∧ (macdStrategy bars).confidence ≤ 100 := by
  have hts0 : 0 ≤ |(calculateMACD (List.map (fun day => day.close) bars)).histogram /
      (calculateMACD (List.map (fun day => day.close) bars)).signalLine| * 100 :=
    mul_nonneg (abs_nonneg _) (by norm_num)
  simp only [macdStrategy]
  split_ifs <;> dsimp only <;> constructor <;> linarith

/-- `calculateActionDifference` is clamped into [0, 1]. -/
theorem calculateActionDifference_bounds (qB qS qH : ℚ) :
    0 ≤ calculateActionDifference qB qS qH ∧ calculateActionDifference qB qS qH ≤ 1 := by
  unfold calculateActionDifference
  split_ifs with h
  · norm_num
  · exact ⟨le_min (by norm_num) (le_max_left _ _), min_le_left _ _⟩

/-- The RL strategy's confidence always lies in [0, 100], whatever the
Q-table, exploration rate and random draws. -/
theorem reinforcementLearningStrategy_confidence_bounds (sqrtFn : ℚ → ℚ)
    (qValues : List (String × ℚ)) (explorationRate rand1 : ℚ) (randIndex : Fin 3)
    (bars : List StockPriceHistory) :
    0 ≤ (reinforcementLearningStrategy sqrtFn qValues explorationRate rand1 randIndex bars).confidence ∧
    (reinforcementLearningStrategy sqrtFn qValues explorationRate rand1 randIndex bars).confidence ≤ 100 := by
  simp only [reinforcementLearningStrategy]
  by_cases hgate : bars.length < 30
  · rw [if_pos hgate]
    norm_num
  · rw [if_neg hgate]
    obtain ⟨hd0, hd1⟩ := calculateActionDifference_bounds
      (lookupQ qValues (stateActionKey (createStateRepresentation sqrtFn bars) TradingSignal.BUY))
      (lookupQ qValues (stateActionKey (createStateRepresentation sqrtFn bars) TradingSignal.SELL))
      (lookupQ qValues (stateActionKey (createStateRepresentation sqrtFn bars) TradingSignal.HOLD))
    have hcs0 : 0 ≤ min (95 : ℚ)
        (50 + calculateActionDifference
          (lookupQ qValues (stateActionKey (createStateRepresentation sqrtFn bars) TradingSignal.BUY))
          (lookupQ qValues (stateActionKey (createStateRepresentation sqrtFn bars) TradingSignal.SELL))
          (lookupQ qValues (stateActionKey (createStateRepresentation sqrtFn bars) TradingSignal.HOLD)) * 30) :=
      le_min (by norm_num) (by linarith)
    have hcs1 : min (95 : ℚ)
        (50 + calculateActionDifference
          (lookupQ qValues (stateActionKey (createStateRepresentation sqrtFn bars) TradingSignal.BUY))
          (lookupQ qValues (stateActionKey (createStateRepresentation sqrtFn bars) TradingSignal.SELL))
          (lookupQ qValues (stateActionKey (createStateRepresentation sqrtFn bars) TradingSignal.HOLD)) * 30) ≤ 95 :=
      min_le_left _ _
    split_ifs <;> dsimp only <;> constructor <;>
      first
        | exact le_min (by norm_num) (by linarith)
        | exact (min_le_left _ _).trans (by norm_num)
        | linarith

/-- The default element returned by `getLastD` on a nonempty list is a
member of the list. -/
theorem getLastD_mem {α : Type} (l : List α) (d : α) (h : l ≠ []) :
    l.getLastD d ∈ l := by
  induction l generalizing d with
  | nil => exact absurd rfl h
  | cons a as ih =>
    rw [List.getLastD_cons]
    cases as with
    | nil => simp [List.getLastD]
    | cons b bs => exact List.mem_cons_of_mem a (ih a (by simp))

/-- Past the gate, the Bollinger middle band is the positive mean of the
trailing window when all prices are positive. -/
theorem calculateBollingerBands_middle_pos (sqrtFn : ℚ → ℚ) (prices : List ℚ)
    (period : ℕ) (k : ℚ) (hp : 0 < period) (hlen : period ≤ prices.length)
    (hpos : ∀ p ∈ prices, 0 < p) :
    0 < (calculateBollingerBands sqrtFn prices period k).middle := by
  unfold calculateBollingerBands
  rw [if_neg (not_lt.mpr hlen)]
  dsimp only
  unfold calculateSMA
  rw [if_neg (not_lt.mpr hlen)]
  apply div_pos
  · apply List.sum_pos
    · intro x hx
      exact hpos x (List.mem_of_mem_drop hx)
    · have hl : (lastSlice prices period).length = period := by
        unfold lastSlice
        rw [List.length_drop]
        omega
      intro hnil
      rw [hnil] at hl
      simp at hl
      omega
  · exact_mod_cast hp

/-- With a nonnegative square root, the upper Bollinger band is at least
the middle band. -/
theorem calculateBollingerBands_middle_le_upper (sqrtFn : ℚ → ℚ) (prices : List ℚ)
    (period : ℕ) (k : ℚ) (hs : ∀ x, 0 ≤ sqrtFn x) (hk : 0 ≤ k)
    (hlen : period ≤ prices.length) :
    (calculateBollingerBands sqrtFn prices period k).middle ≤
      (calculateBollingerBands sqrtFn prices period k).upper := by
  unfold calculateBollingerBands
  rw [if_neg (not_lt.mpr hlen)]
  dsimp only
  nlinarith [mul_nonneg (hs ((List.map (fun p => (p - calculateSMA prices period) *
    (p - calculateSMA prices period)) (lastSlice prices period)).sum / (period : ℚ))) hk]

/-- The Bollinger strategy's confidence lies in [0, 100] whenever prices
are positive and the square root is nonnegative. -/
theorem bollingerBandsStrategy_confidence_bounds (sqrtFn : ℚ → ℚ)
    (bars : List StockPriceHistory) (hs : ∀ x, 0 ≤ sqrtFn x)
    (hpos : ∀ b ∈ bars, 0 < b.close) :
    0 ≤ (bollingerBandsStrategy sqrtFn bars).confidence ∧
    (bollingerBandsStrategy sqrtFn bars).confidence ≤ 100 := by
  simp only [bollingerBandsStrategy]
  by_cases hgate : bars.length < 20
  · rw [if_pos hgate]
    norm_num
  · rw [if_neg hgate]
    have hlen : 20 ≤ (List.map (fun day => day.close) bars).length := by
      rw [List.length_map]
      omega
    have hposc : ∀ p ∈ List.map (fun day => day.close) bars, 0 < p := by
      intro p hp
      obtain ⟨b, hb, rfl⟩ := List.mem_map.mp hp
      exact hpos b hb
    have hcur : 0 < (List.map (fun day => day.close) bars).getLastD 0 := by
      apply hposc
      apply getLastD_mem
      intro hnil
      rw [hnil] at hlen
      simp at hlen
    have hmid : 0 < (calculateBollingerBands sqrtFn (List.map (fun day => day.close) bars) 20 2).middle :=
      calculateBollingerBands_middle_pos sqrtFn _ 20 2 (by norm_num) hlen hposc
    have hup : (calculateBollingerBands sqrtFn (List.map (fun day => day.close) bars) 20 2).middle ≤
        (calculateBollingerBands sqrtFn (List.map (fun day => day.close) bars) 20 2).upper :=
      calculateBollingerBands_middle_le_upper sqrtFn _ 20 2 hs (by norm_num) hlen
    split_ifs with h1 h2 h3 h4 h5 <;> dsimp only
    · -- BUY: price below the lower band, which is therefore positive
      have hlow : 0 < (calculateBollingerBands sqrtFn (List.map (fun day => day.close) bars) 20 2).lower :=
        lt_trans hcur h1
      have hratio : 0 < ((calculateBollingerBands sqrtFn (List.map (fun day => day.close) bars) 20 2).lower -
          (List.map (fun day => day.close) bars).getLastD 0) /
          (calculateBollingerBands sqrtFn (List.map (fun day => day.close) bars) 20 2).lower * 100 := by
        apply mul_pos _ (by norm_num)
        exact div_pos (by linarith) hlow
      exact ⟨le_min (by norm_num) (by linarith), (min_le_left _ _).trans (by norm_num)⟩
    · -- SELL: price above the upper band, which is positive
      have hups : 0 < (calculateBollingerBands sqrtFn (List.map (fun day => day.close) bars) 20 2).upper :=
        lt_of_lt_of_le hmid hup
      have hratio : 0 ≤ ((List.map (fun day => day.close) bars).getLastD 0 -
          (calculateBollingerBands sqrtFn (List.map (fun day => day.close) bars) 20 2).upper) /
          (calculateBollingerBands sqrtFn (List.map (fun day => day.close) bars) 20 2).upper * 100 := by
        apply mul_nonneg _ (by norm_num)
        exact div_nonneg (by linarith) (le_of_lt hups)
      exact ⟨le_min (by norm_num) (by linarith), (min_le_left _ _).trans (by norm_num)⟩
    · norm_num
    · norm_num
    · norm_num
    · norm_num

/-- C2 counterexample: the Moving-Average strategy is not clamped — on 50
bars at 100 followed by 10 bars at 10 its no-crossover HOLD branch
returns confidence `50 - |sma10 - sma50|/sma50*100 = -1550/41 < 0`,
outside [0, 100]. -/
theorem confidence_clamp_counterexample :
    (movingAverageStrategy dropBars).confidence = -1550/41 ∧
    ¬ (0 ≤ (movingAverageStrategy dropBars).confidence ∧
      (movingAverageStrategy dropBars).confidence ≤ 100) := by
  have h : (movingAverageStrategy dropBars).confidence = -1550/41 := by
    norm_num [movingAverageStrategy, dropBars, mkBar, calculateSMA, lastSlice,
      List.replicate, List.dropLast]
  refine ⟨h, ?_⟩
  rw [h]
  norm_num

/-- C2 amended: the RSI and Reinforcement-Learning strategies always
return a confidence in [0, 100]; the MACD strategy does except when its
histogram and signal line are both exactly zero past the 35-bar gate
(there the source computes a NaN confidence, outside [0, 100]); the
Bollinger strategy does for positive price histories (with the
nonnegative `Math.sqrt`); the Moving-Average strategy's no-crossover
HOLD branch is unclamped. -/
theorem strategy_confidence_bounds (bars : List StockPriceHistory) :
    (0 ≤ (rsiStrategy bars).confidence ∧ (rsiStrategy bars).confidence ≤ 100) ∧
    ((bars.length < 35 ∨
      ¬((calculateMACD (List.map (fun day => day.close) bars)).histogram = 0 ∧
        (calculateMACD (List.map (fun day => day.close) bars)).signalLine = 0)) →
      0 ≤ (macdStrategy bars).confidence ∧ (macdStrategy bars).confidence ≤ 100) ∧
    (∀ sqrtFn qValues explorationRate rand1 randIndex,
      0 ≤ (reinforcementLearningStrategy sqrtFn qValues explorationRate rand1
        randIndex bars).confidence ∧
      (reinforcementLearningStrategy sqrtFn qValues explorationRate rand1
        randIndex bars).confidence ≤ 100) ∧
    (∀ sqrtFn, (∀ x, 0 ≤ sqrtFn x) → (∀ b ∈ bars, 0 < b.close) →
      0 ≤ (bollingerBandsStrategy sqrtFn bars).confidence ∧
      (bollingerBandsStrategy sqrtFn bars).confidence ≤ 100) :=
  ⟨rsiStrategy_confidence_bounds bars,
   fun hreal => macdStrategy_confidence_bounds bars hreal,
   fun sqrtFn qValues explorationRate rand1 randIndex =>
     reinforcementLearningStrategy_confidence_bounds sqrtFn qValues explorationRate
       rand1 randIndex bars,
   fun sqrtFn hs hpos => bollingerBandsStrategy_confidence_bounds sqrtFn bars hs hpos⟩

/-- Witness for C2 on 20 flat bars at 100 (below the MACD gate; RL with
the zero square root and empty table; Bollinger with positive prices). -/
theorem strategy_confidence_bounds_witness :
    (0 ≤ (macdStrategy flatBars20).confidence ∧
      (macdStrategy flatBars20).confidence ≤ 100) ∧
    (0 ≤ (reinforcementLearningStrategy (fun _ => 0) [] (1/10) 1 0 flatBars20).confidence ∧
      (reinforcementLearningStrategy (fun _ => 0) [] (1/10) 1 0 flatBars20).confidence ≤ 100) ∧
    (0 ≤ (bollingerBandsStrategy (fun _ => 0) flatBars20).confidence ∧
      (bollingerBandsStrategy (fun _ => 0) flatBars20).confidence ≤ 100) :=
  ⟨(strategy_confidence_bounds flatBars20).2.1 (Or.inl (by decide)),
   (strategy_confidence_bounds flatBars20).2.2.1 (fun _ => 0) [] (1/10) 1 0,
   (strategy_confidence_bounds flatBars20).2.2.2 (fun _ => 0) (fun _ => le_refl 0)
     (by
       intro b hb
       simp only [flatBars20, List.mem_replicate] at hb
       rw [hb.2]
       norm_num [mkBar])⟩

/-! ## C8: the unique BUY crossover on a strictly increasing series -/

/-- A nonempty list of elements strictly below `x` sums below
`length * x`. -/
theorem sum_lt_length_mul (l : List ℚ) (x : ℚ) (hne : l ≠ [])
    (h : ∀ a ∈ l, a < x) : l.sum < (l.length : ℚ) * x := by
  induction l with
  | nil => exact absurd rfl hne
  | cons a as ih =>
    by_cases has : as = []
    · subst has
      simp only [List.sum_cons, List.sum_nil, List.length_cons, List.length_nil]
      have := h a (List.mem_cons_self a [])
      push_cast
      linarith
    · have hih := ih has (fun b hb => h b (List.mem_cons_of_mem _ hb))
      have ha := h a (List.mem_cons_self _ _)
      simp only [List.sum_cons, List.length_cons]
      push_cast
      linarith

/-- A list of elements at least `x` sums to at least `length * x`. -/
theorem length_mul_le_sum (l : List ℚ) (x : ℚ) (h : ∀ a ∈ l, x ≤ a) :
    (l.length : ℚ) * x ≤ l.sum := by
  induction l with
  | nil => simp
  | cons a as ih =>
    have hih := ih (fun b hb => h b (List.mem_cons_of_mem _ hb))
    have ha := h a (List.mem_cons_self _ _)
    simp only [List.sum_cons, List.length_cons]
    push_cast
    linarith

/-- A list of elements at most `x` sums to at most `length * x`. -/
theorem sum_le_length_mul (l : List ℚ) (x : ℚ) (h : ∀ a ∈ l, a ≤ x) :
    l.sum ≤ (l.length : ℚ) * x := by
  induction l with
  | nil => simp
  | cons a as ih =>
    have hih := ih (fun b hb => h b (List.mem_cons_of_mem _ hb))
    have ha := h a (List.mem_cons_self _ _)
    simp only [List.sum_cons, List.length_cons]
    push_cast
    linarith

/-- In a strictly increasing list the head is a lower bound. -/
theorem pairwise_head_le (c0 : ℚ) (tl : List ℚ)
    (hpw : (c0 :: tl).Pairwise (· < ·)) : ∀ c ∈ c0 :: tl, c0 ≤ c := by
  intro c hc
  rcases List.mem_cons.mp hc with rfl | hm
  · exact le_refl c
  · exact le_of_lt ((List.pairwise_cons.mp hpw).1 c hm)

/-- On a strictly increasing list, the mean of the trailing `n` elements
is strictly below the mean of the trailing `m < n` elements. -/
theorem calculateSMA_lt_of_pairwise (l : List ℚ) (hp : l.Pairwise (· < ·))
    (m n : ℕ) (hm : 0 < m) (hmn : m < n) (hn : n ≤ l.length) :
    calculateSMA l n < calculateSMA l m := by
  have hmlen : m ≤ l.length := le_trans (le_of_lt hmn) hn
  unfold calculateSMA
  rw [if_neg (not_lt.mpr hn), if_neg (not_lt.mpr hmlen)]
  set A := lastSlice l n with hA
  have hAlen : A.length = n := by
    rw [hA]
    unfold lastSlice
    rw [List.length_drop]
    omega
  have hApw : A.Pairwise (· < ·) := List.Pairwise.sublist (List.drop_sublist _ _) hp
  set B := A.take (n - m) with hB
  set C := A.drop (n - m) with hC
  have hBC : B ++ C = A := List.take_append_drop _ _
  have hClen : C.length = m := by
    rw [hC, List.length_drop, hAlen]
    omega
  have hBlen : B.length = n - m := by
    rw [hB, List.length_take, hAlen]
    omega
  have hCne : C ≠ [] := by
    intro h0
    rw [h0] at hClen
    simp at hClen
    omega
  obtain ⟨c0, tl, hC0⟩ := List.exists_cons_of_ne_nil hCne
  have hpwBC : (B ++ C).Pairwise (· < ·) := hBC.symm ▸ hApw
  obtain ⟨hpwB, hpwC, hcross⟩ := List.pairwise_append.mp hpwBC
  have hble : ∀ b ∈ B, b < c0 := fun b hb => hcross b hb c0 (by
    rw [hC0]
    exact List.mem_cons_self _ _)
  have hcge : ∀ c ∈ C, c0 ≤ c := by
    rw [hC0] at hpwC ⊢
    exact pairwise_head_le c0 tl hpwC
  have hBne : B ≠ [] := by
    intro h0
    rw [h0] at hBlen
    simp at hBlen
    omega
  have hsB : B.sum < (B.length : ℚ) * c0 := sum_lt_length_mul B c0 hBne hble
  have hsC : (C.length : ℚ) * c0 ≤ C.sum := length_mul_le_sum C c0 hcge
  have hlm : lastSlice l m = C := by
    rw [hC, hA]
    unfold lastSlice
    rw [List.drop_drop]
    congr 1
    omega
  rw [hlm, ← hBC, List.sum_append]
  have hmq : (0 : ℚ) < (m : ℚ) := by exact_mod_cast hm
  have hnq : (0 : ℚ) < (n : ℚ) := by
    have : 0 < n := lt_trans hm hmn
    exact_mod_cast this
  rw [div_lt_div_iff₀ hnq hmq]
  have hcastB : (B.length : ℚ) = (n : ℚ) - (m : ℚ) := by
    rw [hBlen]
    push_cast [Nat.cast_sub (le_of_lt hmn)]
    ring
  have hcastC : (C.length : ℚ) = (m : ℚ) := by rw [hClen]
  rw [hcastB] at hsB
  rw [hcastC] at hsC
  have hnm : (0 : ℚ) < (n : ℚ) - (m : ℚ) := by
    have : m < n := hmn
    have := (Nat.cast_lt (α := ℚ)).mpr this
    linarith
  nlinarith [mul_lt_mul_of_pos_left hsB hmq, mul_le_mul_of_nonneg_left hsC (le_of_lt hnm)]

/-- In a strictly increasing list every element is at most the last. -/
theorem pairwise_le_getLastD (l : List ℚ) (hp : l.Pairwise (· < ·))
    (hne : l ≠ []) : ∀ a ∈ l, a ≤ l.getLastD 0 := by
  have hsplit := List.dropLast_append_getLast hne
  have hgl : l.getLastD 0 = l.getLast hne := by
    rw [List.getLastD_eq_getLast?, List.getLast?_eq_getLast l hne]
    rfl
  intro a ha
  rw [hgl]
  have hp2 : (l.dropLast ++ [l.getLast hne]).Pairwise (· < ·) := hsplit.symm ▸ hp
  obtain ⟨_, _, hcross⟩ := List.pairwise_append.mp hp2
  have ha2 : a ∈ l.dropLast ++ [l.getLast hne] := hsplit.symm ▸ ha
  rcases List.mem_append.mp ha2 with hm | hm
  · exact le_of_lt (hcross a hm _ (List.mem_singleton_self _))
  · rw [List.mem_singleton.mp hm]

/-- On a strictly increasing list, any trailing mean is at most the final
element. -/
theorem calculateSMA_le_getLastD (l : List ℚ) (hp : l.Pairwise (· < ·))
    (m : ℕ) (hm : 0 < m) (hne : l ≠ []) :
    calculateSMA l m ≤ l.getLastD 0 := by
  unfold calculateSMA
  split_ifs with h
  · exact le_refl _
  · have hlen : m ≤ l.length := not_lt.mp h
    have hmem : ∀ a ∈ lastSlice l m, a ≤ l.getLastD 0 := fun a ha =>
      pairwise_le_getLastD l hp hne a (List.mem_of_mem_drop ha)
    have hsum : (lastSlice l m).sum ≤ ((lastSlice l m).length : ℚ) * l.getLastD 0 :=
      sum_le_length_mul _ _ hmem
    have hslen : (lastSlice l m).length = m := by
      unfold lastSlice
      rw [List.length_drop]
      omega
    rw [hslen] at hsum
    rw [div_le_iff₀ (by exact_mod_cast hm)]
    linarith

/-- `calculateSMA` falls back to the last price below the window length. -/
theorem calculateSMA_of_lt (prices : List ℚ) (period : ℕ)
    (h : prices.length < period) : calculateSMA prices period = prices.getLastD 0 := by
  unfold calculateSMA
  rw [if_pos h]

/-- The MA strategy's gate branch. -/
theorem movingAverageStrategy_of_gate (bars : List StockPriceHistory)
    (h : bars.length < 50) :
    movingAverageStrategy bars =
      ⟨TradingSignal.HOLD, 50, "Insufficient historical data for MA strategy", ["SMA"]⟩ := by
  simp only [movingAverageStrategy]
  rw [if_pos h]

/-- The MA strategy's BUY branch fires exactly on the upward crossover
conditions. -/
theorem movingAverageStrategy_of_buy (bars : List StockPriceHistory)
    (h50 : ¬ bars.length < 50)
    (h1 : calculateSMA (List.map (fun day => day.close) bars).dropLast 10 ≤
      calculateSMA (List.map (fun day => day.close) bars).dropLast 50)
    (h2 : calculateSMA (List.map (fun day => day.close) bars) 50 <
      calculateSMA (List.map (fun day => day.close) bars) 10) :
    movingAverageStrategy bars =
      ⟨TradingSignal.BUY, 75, "Short-term MA crossed above long-term MA", ["SMA10", "SMA50"]⟩ := by
  simp only [movingAverageStrategy]
  rw [if_neg h50, if_pos ⟨h1, h2⟩]

/-- When both the previous and the current short SMA strictly exceed the
long SMA there is no crossover and the MA strategy holds. -/
theorem movingAverageStrategy_of_above (bars : List StockPriceHistory)
    (h50 : ¬ bars.length < 50)
    (hprev : calculateSMA (List.map (fun day => day.close) bars).dropLast 50 <
      calculateSMA (List.map (fun day => day.close) bars).dropLast 10)
    (hcur : calculateSMA (List.map (fun day => day.close) bars) 50 <
      calculateSMA (List.map (fun day => day.close) bars) 10) :
    (movingAverageStrategy bars).signal = TradingSignal.HOLD := by
  simp only [movingAverageStrategy]
  rw [if_neg h50,
    if_neg (fun hc => absurd hc.1 (not_le.mpr hprev)),
    if_neg (fun hc => absurd hc.2 (not_lt.mpr (le_of_lt hcur)))]

/-- C8: on every strictly increasing 60-bar close series, running the MA
strategy on each prefix produces a BUY signal exactly at bar 50 — the bar
where SMA10 first crosses above SMA50 — with confidence 75, and at no
other bar. -/
theorem movingAverage_unique_buy (bars : List StockPriceHistory)
    (hlen : bars.length = 60)
    (hmono : (List.map (fun day => day.close) bars).Pairwise (· < ·)) :
    (∀ t, t ≤ 60 →
      ((movingAverageStrategy (bars.take t)).signal = TradingSignal.BUY ↔ t = 50)) ∧
    movingAverageStrategy (bars.take 50) =
      ⟨TradingSignal.BUY, 75, "Short-term MA crossed above long-term MA", ["SMA10", "SMA50"]⟩ ∧
    calculateSMA (List.map (fun day => day.close) (bars.take 50)).dropLast 10 ≤
      calculateSMA (List.map (fun day => day.close) (bars.take 50)).dropLast 50 ∧
    calculateSMA (List.map (fun day => day.close) (bars.take 50)) 50 <
      calculateSMA (List.map (fun day => day.close) (bars.take 50)) 10 := by
  have hmap : ∀ t, List.map (fun day => day.close) (bars.take t) =
      (List.map (fun day => day.close) bars).take t := fun t => List.map_take _ _ _
  set L := List.map (fun day => day.close) bars with hLdef
  have hLlen : L.length = 60 := by rw [hLdef, List.length_map, hlen]
  -- facts about the prefix of length t, for 50 ≤ t ≤ 60
  have htake_len : ∀ t, t ≤ 60 → (bars.take t).length = t := by
    intro t ht
    rw [List.length_take]
    omega
  have htakeL_len : ∀ t, (L.take t).length = min t 60 := by
    intro t
    rw [List.length_take, hLlen]
  have hpw_take : ∀ t, (L.take t).Pairwise (· < ·) := fun t =>
    List.Pairwise.sublist (List.take_sublist _ _) hmono
  have hpw_prev : ∀ t, (L.take t).dropLast.Pairwise (· < ·) := fun t =>
    List.Pairwise.sublist (List.dropLast_sublist _) (hpw_take t)
  have hprev_len : ∀ t, (L.take t).dropLast.length = min t 60 - 1 := by
    intro t
    rw [List.length_dropLast, htakeL_len]
  -- the current-bar comparison for any prefix with 50 ≤ t ≤ 60
  have hcur : ∀ t, 50 ≤ t → t ≤ 60 →
      calculateSMA (L.take t) 50 < calculateSMA (L.take t) 10 := by
    intro t h1 h2
    apply calculateSMA_lt_of_pairwise (L.take t) (hpw_take t) 10 50 (by norm_num) (by norm_num)
    rw [htakeL_len]
    omega
  -- the previous-bar comparison for prefixes with 51 ≤ t ≤ 60
  have hprev : ∀ t, 51 ≤ t → t ≤ 60 →
      calculateSMA (L.take t).dropLast 50 < calculateSMA (L.take t).dropLast 10 := by
    intro t h1 h2
    apply calculateSMA_lt_of_pairwise _ (hpw_prev t) 10 50 (by norm_num) (by norm_num)
    rw [hprev_len]
    omega
  -- the crossing at t = 50
  have h50len : ¬ (bars.take 50).length < 50 := by
    rw [htake_len 50 (by norm_num)]
    omega
  have hprev50_len : (L.take 50).dropLast.length = 49 := by
    rw [hprev_len]
    omega
  have hprev50_ne : (L.take 50).dropLast ≠ [] := by
    intro h0
    rw [h0] at hprev50_len
    simp at hprev50_len
  have hbuy1 : calculateSMA (L.take 50).dropLast 10 ≤ calculateSMA (L.take 50).dropLast 50 := by
    rw [calculateSMA_of_lt _ 50 (by rw [hprev50_len]; omega)]
    exact calculateSMA_le_getLastD _ (hpw_prev 50) 10 (by norm_num) hprev50_ne
  have hbuy2 : calculateSMA (L.take 50) 50 < calculateSMA (L.take 50) 10 :=
    hcur 50 (le_refl 50) (by norm_num)
  have hbuy : movingAverageStrategy (bars.take 50) =
      ⟨TradingSignal.BUY, 75, "Short-term MA crossed above long-term MA", ["SMA10", "SMA50"]⟩ := by
    apply movingAverageStrategy_of_buy _ h50len
    · rw [hmap 50]
      exact hbuy1
    · rw [hmap 50]
      exact hbuy2
  refine ⟨?_, hbuy, by rw [hmap 50]; exact hbuy1, by rw [hmap 50]; exact hbuy2⟩
  intro t ht
  rcases lt_trichotomy t 50 with hlt | heq | hgt
  · -- below the gate: HOLD
    constructor
    · intro hb
      rw [movingAverageStrategy_of_gate _ (by rw [htake_len t ht]; omega)] at hb
      exact absurd hb (by simp)
    · intro h50
      omega
  · subst heq
    constructor
    · intro _
      rfl
    · intro _
      rw [hbuy]
  · -- past the crossing: both SMAs stay above, no new crossover
    have hsig : (movingAverageStrategy (bars.take t)).signal = TradingSignal.HOLD := by
      apply movingAverageStrategy_of_above _ (by rw [htake_len t ht]; omega)
      · rw [hmap t]
        exact hprev t (by omega) ht
      · rw [hmap t]
        exact hcur t (by omega) ht
    constructor
    · intro hb
      rw [hsig] at hb
      exact absurd hb (by simp)
    · intro h50
      omega

/-- Witness for C8: the series with closes 1, 2, ..., 60. -/
theorem movingAverage_unique_buy_witness :
    movingAverageStrategy (incBars.take 50) =
      ⟨TradingSignal.BUY, 75, "Short-term MA crossed above long-term MA", ["SMA10", "SMA50"]⟩ ∧
    ((movingAverageStrategy (incBars.take 49)).signal = TradingSignal.BUY ↔ 49 = 50) := by
  have hlen : incBars.length = 60 := by
    rw [incBars, List.length_map, List.length_range]
  have hmono : (List.map (fun day => day.close) incBars).Pairwise (· < ·) := by
    rw [incBars, List.map_map, List.pairwise_map]
    apply (List.pairwise_lt_range 60).imp
    intro a b hab
    show (((a + 1 : ℕ) : ℚ)) < (((b + 1 : ℕ) : ℚ))
    exact_mod_cast Nat.succ_lt_succ hab
  exact ⟨(movingAverage_unique_buy incBars hlen hmono).2.1,
    (movingAverage_unique_buy incBars hlen hmono).1 49 (by norm_num)⟩

/-! ## C10: the shape and boundedness of the Q-table key space -/

/-- Every state string the encoder can produce is one of the 19 members
of `validStates`. -/
theorem createStateRepresentation_mem_validStates (sqrtFn : ℚ → ℚ)
    (bars : List StockPriceHistory) :
    createStateRepresentation sqrtFn bars ∈ validStates := by
  simp only [createStateRepresentation]
  split_ifs <;> decide

/-- Keys built from a valid state are valid. -/
theorem stateActionKey_mem_validKeys (s : String) (a : TradingSignal)
    (hs : s ∈ validStates) : stateActionKey s a ∈ validKeys := by
  unfold validKeys
  rw [List.mem_flatMap]
  refine ⟨s, hs, ?_⟩
  cases a <;> simp

/-- Past its 2-bar gate, `updateQValues` is exactly one `setQ` at the
`state:action` key. -/
theorem updateQValues_set (sqrtFn : ℚ → ℚ) (α : ℚ) (q : List (String × ℚ))
    (bars : List StockPriceHistory) (action : TradingSignal) (p : ℚ)
    (h : 2 ≤ bars.length) :
    updateQValues sqrtFn α q bars action p =
      setQ q (stateActionKey (createStateRepresentation sqrtFn bars) action)
        (lookupQ q (stateActionKey (createStateRepresentation sqrtFn bars) action) +
          α * (realizedReward bars action p -
            lookupQ q (stateActionKey (createStateRepresentation sqrtFn bars) action))) := by
  unfold updateQValues
  rw [if_neg (by omega)]
  rfl

/-- Keys after a `setQ` are the written key or a previous key. -/
theorem keys_setQ_subset (q : List (String × ℚ)) (k : String) (v : ℚ) :
    ∀ x ∈ (setQ q k v).map Prod.fst, x = k ∨ x ∈ q.map Prod.fst := by
  induction q with
  | nil =>
    intro x hx
    simp only [setQ, List.map_cons, List.map_nil, List.mem_singleton] at hx
    exact Or.inl hx
  | cons hd tl ih =>
    obtain ⟨k', w⟩ := hd
    intro x hx
    by_cases h : k' = k
    · simp only [setQ, if_pos h, List.map_cons, List.mem_cons] at hx
      rcases hx with rfl | hx
      · exact Or.inl rfl
      · exact Or.inr (by simp only [List.map_cons, List.mem_cons]; exact Or.inr hx)
    · simp only [setQ, if_neg h, List.map_cons, List.mem_cons] at hx
      rcases hx with rfl | hx
      · exact Or.inr (by simp)
      · rcases ih x hx with h1 | h1
        · exact Or.inl h1
        · exact Or.inr (by simp only [List.map_cons, List.mem_cons]; exact Or.inr h1)

/-- A `setQ` write preserves distinctness of the stored keys. -/
theorem keys_setQ_nodup (q : List (String × ℚ)) (k : String) (v : ℚ)
    (h : (q.map Prod.fst).Nodup) : ((setQ q k v).map Prod.fst).Nodup := by
  induction q with
  | nil => simp [setQ]
  | cons hd tl ih =>
    obtain ⟨k', w⟩ := hd
    simp only [List.map_cons, List.nodup_cons] at h
    by_cases hk : k' = k
    · simp only [setQ, if_pos hk, List.map_cons, List.nodup_cons]
      exact ⟨hk ▸ h.1, h.2⟩
    · simp only [setQ, if_neg hk, List.map_cons, List.nodup_cons]
      refine ⟨?_, ih h.2⟩
      intro hmem
      rcases keys_setQ_subset tl k v k' hmem with h1 | h1
      · exact hk h1
      · exact h.1 h1

/-- Replaying any sequence of `updateQValues` calls keeps every stored key
inside `validKeys` and keeps the stored keys distinct. -/
theorem runQUpdates_invariant (ops : List QUpdateOp) :
    ∀ q : List (String × ℚ),
      (∀ x ∈ q.map Prod.fst, x ∈ validKeys) → (q.map Prod.fst).Nodup →
      (∀ x ∈ (runQUpdates ops q).map Prod.fst, x ∈ validKeys) ∧
        ((runQUpdates ops q).map Prod.fst).Nodup := by
  induction ops with
  | nil => exact fun q h1 h2 => ⟨h1, h2⟩
  | cons op ops ih =>
    intro q h1 h2
    simp only [runQUpdates, List.foldl_cons]
    by_cases hl : op.stockHistory.length < 2
    · have hq : updateQValues op.sqrtFn op.learningRate q op.stockHistory op.action
          op.currentPrice = q := by
        unfold updateQValues
        rw [if_pos hl]
      rw [hq]
      exact ih q h1 h2
    · rw [updateQValues_set _ _ _ _ _ _ (by omega)]
      apply ih
      · intro x hx
        rcases keys_setQ_subset q _ _ x hx with rfl | hx2
        · exact stateActionKey_mem_validKeys _ _
            (createStateRepresentation_mem_validStates _ _)
        · exact h1 x hx2
      · exact keys_setQ_nodup q _ _ h2

/-- C10 amended: starting from the constructor's empty table, every key
ever stored by any sequence of `updateQValues` calls has the form
`state:action` with the state drawn from the 19-element `validStates`
(the sentinel plus the 18 bucket concatenations) and the action one of
BUY/SELL/HOLD, so the table holds at most `19 × 3 = 57` entries. -/
theorem qTable_keys_bounded (ops : List QUpdateOp) :
    (∀ x ∈ (runQUpdates ops []).map Prod.fst, x ∈ validKeys) ∧
    (runQUpdates ops []).length ≤ 57 ∧
    validStates.length = 19 ∧ validStates.Nodup ∧
    validKeys.length = 57 ∧ validKeys.Nodup := by
  obtain ⟨hsub, hnd⟩ := runQUpdates_invariant ops [] (by simp) (by simp)
  refine ⟨hsub, ?_, by decide, by decide, by decide, by decide⟩
  have h1 : (runQUpdates ops []).length = ((runQUpdates ops []).map Prod.fst).length :=
    (List.length_map _ _).symm
  have h2 : ((runQUpdates ops []).map Prod.fst).toFinset.card =
      ((runQUpdates ops []).map Prod.fst).length := List.toFinset_card_of_nodup hnd
  have h3 : ((runQUpdates ops []).map Prod.fst).toFinset ⊆ validKeys.toFinset := by
    intro x hx
    rw [List.mem_toFinset] at hx ⊢
    exact hsub x hx
  have h4 := Finset.card_le_card h3
  have h5 := List.toFinset_card_le validKeys
  have h6 : validKeys.length = 57 := by decide
  omega

/-! ### A concrete run writing more than 39 distinct keys

The replay below uses a single square-root function `sqrtCx` for every
operation. The thirteen non-sentinel histories are built so that the
variance `Math.sqrt` is applied to is always one of the perfect rational
squares `0`, `1/40000`, `1/2500` or `1/625` (their return windows hold
five returns of one magnitude and five of another, making the population
variance a square exactly); `sqrtCx` returns the exact square root at
each of these points, so it agrees with `Math.sqrt` at every value it is
ever evaluated on in this replay — certified by `sqrtCx_consistent`.
The resulting volatilities 0 and 1/200 (low), 1/50 (medium) and 1/25
(high) land well inside their buckets, so the replay traces a run of the
real program. -/

/-- The exact square root of each variance occurring in the replay: the
restriction of the real square root to `{0, 1/40000, 1/2500, 1/625}`
(with `sqrtCx 0 = 0` via the final branch). -/
def sqrtCx : ℚ → ℚ := fun v =>
  if v = 1/40000 then 1/200
  else if v = 1/2500 then 1/50
  else if v = 1/625 then 1/25
  else 0

/-- Two bars: too short for the encoder, so the sentinel state. -/
def histA : List StockPriceHistory := [mkBar 100, mkBar 100]

/-- The encoder gates `histA` into the sentinel for every square root. -/
theorem state_histA (s : ℚ → ℚ) :
    createStateRepresentation s histA = "insufficient_data" := rfl

/-- Fourteen bars starting flat at 100, last ten returns alternating +1/200 and -1/200: neutral RSI (gated at 14 bars), close below the mean, return variance exactly 1/40000. -/
def histNBlo : List StockPriceHistory :=
  [mkBar 100,
   mkBar 100,
   mkBar 100,
   mkBar 100,
   mkBar (201/2),
   mkBar (39999/400),
   mkBar (8039799/80000),
   mkBar (1599920001/16000000),
   mkBar (321583920201/3200000000),
   mkBar (63995200119999/640000000000),
   mkBar (12863035224119799/128000000000000),
   mkBar (2559744009599840001/25600000000000000),
   mkBar (514508545929567840201/5120000000000000000),
   mkBar (102387200639984000199999/1024000000000000000000)]

/-- The encoder's bucket string for `histNBlo` under `sqrtCx`. -/
theorem state_NBlo :
    createStateRepresentation sqrtCx histNBlo = "below_sma50_neutral_low" := by
  norm_num [createStateRepresentation, histNBlo, sqrtCx, mkBar, calculateRSI, calculateSMA,
    calculateVolatility, returnsVariance, lastSlice, priceChanges, gainClip, lossClip]
  rfl

/-- As `histNBlo` with returns of magnitude 1/50: variance exactly 1/2500. -/
def histNBmed : List StockPriceHistory :=
  [mkBar 100,
   mkBar 100,
   mkBar 100,
   mkBar 100,
   mkBar 102,
   mkBar (2499/25),
   mkBar (127449/1250),
   mkBar (6245001/62500),
   mkBar (318495051/3125000),
   mkBar (15606257499/156250000),
   mkBar (795919132449/7812500000),
   mkBar (39000037490001/390625000000),
   mkBar (1989001911990051/19531250000000),
   mkBar (97461093687512499/976562500000000)]

/-- The encoder's bucket string for `histNBmed` under `sqrtCx`. -/
theorem state_NBmed :
    createStateRepresentation sqrtCx histNBmed = "below_sma50_neutral_medium" := by
  norm_num [createStateRepresentation, histNBmed, sqrtCx, mkBar, calculateRSI, calculateSMA,
    calculateVolatility, returnsVariance, lastSlice, priceChanges, gainClip, lossClip]
  rfl

/-- As `histNBlo` with returns of magnitude 1/25: variance exactly 1/625. -/
def histNBhi : List StockPriceHistory :=
  [mkBar 100,
   mkBar 100,
   mkBar 100,
   mkBar 100,
   mkBar 104,
   mkBar (2496/25),
   mkBar (64896/625),
   mkBar (1557504/15625),
   mkBar (40495104/390625),
   mkBar (971882496/9765625),
   mkBar (25268944896/244140625),
   mkBar (606454677504/6103515625),
   mkBar (15767821615104/152587890625),
   mkBar (378427718762496/3814697265625)]

/-- The encoder's bucket string for `histNBhi` under `sqrtCx`. -/
theorem state_NBhi :
    createStateRepresentation sqrtCx histNBhi = "below_sma50_neutral_high" := by
  norm_num [createStateRepresentation, histNBhi, sqrtCx, mkBar, calculateRSI, calculateSMA,
    calculateVolatility, returnsVariance, lastSlice, priceChanges, gainClip, lossClip]
  rfl

/-- A close of 1 then a jump to 100 (outside the volatility window) and the alternating +1/200 / -1/200 tail: neutral RSI, close above the mean, variance exactly 1/40000. -/
def histNAlo : List StockPriceHistory :=
  [mkBar 1,
   mkBar 100,
   mkBar 100,
   mkBar 100,
   mkBar (201/2),
   mkBar (39999/400),
   mkBar (8039799/80000),
   mkBar (1599920001/16000000),
   mkBar (321583920201/3200000000),
   mkBar (63995200119999/640000000000),
   mkBar (12863035224119799/128000000000000),
   mkBar (2559744009599840001/25600000000000000),
   mkBar (514508545929567840201/5120000000000000000),
   mkBar (102387200639984000199999/1024000000000000000000)]

/-- The encoder's bucket string for `histNAlo` under `sqrtCx`. -/
theorem state_NAlo :
    createStateRepresentation sqrtCx histNAlo = "above_sma50_neutral_low" := by
  norm_num [createStateRepresentation, histNAlo, sqrtCx, mkBar, calculateRSI, calculateSMA,
    calculateVolatility, returnsVariance, lastSlice, priceChanges, gainClip, lossClip]
  rfl

/-- As `histNAlo` with returns of magnitude 1/50: variance exactly 1/2500. -/
def histNAmed : List StockPriceHistory :=
  [mkBar 1,
   mkBar 100,
   mkBar 100,
   mkBar 100,
   mkBar 102,
   mkBar (2499/25),
   mkBar (127449/1250),
   mkBar (6245001/62500),
   mkBar (318495051/3125000),
   mkBar (15606257499/156250000),
   mkBar (795919132449/7812500000),
   mkBar (39000037490001/390625000000),
   mkBar (1989001911990051/19531250000000),
   mkBar (97461093687512499/976562500000000)]

/-- The encoder's bucket string for `histNAmed` under `sqrtCx`. -/
theorem state_NAmed :
    createStateRepresentation sqrtCx histNAmed = "above_sma50_neutral_medium" := by
  norm_num [createStateRepresentation, histNAmed, sqrtCx, mkBar, calculateRSI, calculateSMA,
    calculateVolatility, returnsVariance, lastSlice, priceChanges, gainClip, lossClip]
  rfl

/-- As `histNAlo` with returns of magnitude 1/25: variance exactly 1/625. -/
def histNAhi : List StockPriceHistory :=
  [mkBar 1,
   mkBar 100,
   mkBar 100,
   mkBar 100,
   mkBar 104,
   mkBar (2496/25),
   mkBar (64896/625),
   mkBar (1557504/15625),
   mkBar (40495104/390625),
   mkBar (971882496/9765625),
   mkBar (25268944896/244140625),
   mkBar (606454677504/6103515625),
   mkBar (15767821615104/152587890625),
   mkBar (378427718762496/3814697265625)]

/-- The encoder's bucket string for `histNAhi` under `sqrtCx`. -/
theorem state_NAhi :
    createStateRepresentation sqrtCx histNAhi = "above_sma50_neutral_high" := by
  norm_num [createStateRepresentation, histNAhi, sqrtCx, mkBar, calculateRSI, calculateSMA,
    calculateVolatility, returnsVariance, lastSlice, priceChanges, gainClip, lossClip]
  rfl

/-- Fifteen bars, nondecreasing (returns alternating +1/100 and 0): zero average loss so RSI 100, close above the mean, variance exactly (1/200)^2 = 1/40000. -/
def histOAlo : List StockPriceHistory :=
  [mkBar 100,
   mkBar 100,
   mkBar 100,
   mkBar 100,
   mkBar 100,
   mkBar 101,
   mkBar 101,
   mkBar (10201/100),
   mkBar (10201/100),
   mkBar (1030301/10000),
   mkBar (1030301/10000),
   mkBar (104060401/1000000),
   mkBar (104060401/1000000),
   mkBar (10510100501/100000000),
   mkBar (10510100501/100000000)]

/-- The encoder's bucket string for `histOAlo` under `sqrtCx`. -/
theorem state_OAlo :
    createStateRepresentation sqrtCx histOAlo = "above_sma50_overbought_low" := by
  norm_num [createStateRepresentation, histOAlo, sqrtCx, mkBar, calculateRSI, calculateSMA,
    calculateVolatility, returnsVariance, lastSlice, priceChanges, gainClip, lossClip]
  rfl

/-- As `histOAlo` with up-moves of 1/25: variance exactly 1/2500. -/
def histOAmed : List StockPriceHistory :=
  [mkBar 100,
   mkBar 100,
   mkBar 100,
   mkBar 100,
   mkBar 100,
   mkBar 104,
   mkBar 104,
   mkBar (2704/25),
   mkBar (2704/25),
   mkBar (70304/625),
   mkBar (70304/625),
   mkBar (1827904/15625),
   mkBar (1827904/15625),
   mkBar (47525504/390625),
   mkBar (47525504/390625)]

/-- The encoder's bucket string for `histOAmed` under `sqrtCx`. -/
theorem state_OAmed :
    createStateRepresentation sqrtCx histOAmed = "above_sma50_overbought_medium" := by
  norm_num [createStateRepresentation, histOAmed, sqrtCx, mkBar, calculateRSI, calculateSMA,
    calculateVolatility, returnsVariance, lastSlice, priceChanges, gainClip, lossClip]
  rfl

/-- As `histOAlo` with up-moves of 2/25: variance exactly 1/625. -/
def histOAhi : List StockPriceHistory :=
  [mkBar 100,
   mkBar 100,
   mkBar 100,
   mkBar 100,
   mkBar 100,
   mkBar 108,
   mkBar 108,
   mkBar (2916/25),
   mkBar (2916/25),
   mkBar (78732/625),
   mkBar (78732/625),
   mkBar (2125764/15625),
   mkBar (2125764/15625),
   mkBar (57395628/390625),
   mkBar (57395628/390625)]

/-- The encoder's bucket string for `histOAhi` under `sqrtCx`. -/
theorem state_OAhi :
    createStateRepresentation sqrtCx histOAhi = "above_sma50_overbought_high" := by
  norm_num [createStateRepresentation, histOAhi, sqrtCx, mkBar, calculateRSI, calculateSMA,
    calculateVolatility, returnsVariance, lastSlice, priceChanges, gainClip, lossClip]
  rfl

/-- Fifteen flat bars: RSI 100 (no losses), close not above the mean, variance exactly 0. -/
def histOBlo : List StockPriceHistory :=
  [mkBar 100,
   mkBar 100,
   mkBar 100,
   mkBar 100,
   mkBar 100,
   mkBar 100,
   mkBar 100,
   mkBar 100,
   mkBar 100,
   mkBar 100,
   mkBar 100,
   mkBar 100,
   mkBar 100,
   mkBar 100,
   mkBar 100]

/-- The encoder's bucket string for `histOBlo` under `sqrtCx`. -/
theorem state_OBlo :
    createStateRepresentation sqrtCx histOBlo = "below_sma50_overbought_low" := by
  norm_num [createStateRepresentation, histOBlo, sqrtCx, mkBar, calculateRSI, calculateSMA,
    calculateVolatility, returnsVariance, lastSlice, priceChanges, gainClip, lossClip]
  rfl

/-- Fifteen bars, nonincreasing (returns alternating -1/100 and 0): zero average gain so RSI 0, close below the mean, variance exactly 1/40000. -/
def histSBlo : List StockPriceHistory :=
  [mkBar 100,
   mkBar 100,
   mkBar 100,
   mkBar 100,
   mkBar 100,
   mkBar 99,
   mkBar 99,
   mkBar (9801/100),
   mkBar (9801/100),
   mkBar (970299/10000),
   mkBar (970299/10000),
   mkBar (96059601/1000000),
   mkBar (96059601/1000000),
   mkBar (9509900499/100000000),
   mkBar (9509900499/100000000)]

/-- The encoder's bucket string for `histSBlo` under `sqrtCx`. -/
theorem state_SBlo :
    createStateRepresentation sqrtCx histSBlo = "below_sma50_oversold_low" := by
  norm_num [createStateRepresentation, histSBlo, sqrtCx, mkBar, calculateRSI, calculateSMA,
    calculateVolatility, returnsVariance, lastSlice, priceChanges, gainClip, lossClip]
  rfl

/-- As `histSBlo` with down-moves of 1/25: variance exactly 1/2500. -/
def histSBmed : List StockPriceHistory :=
  [mkBar 100,
   mkBar 100,
   mkBar 100,
   mkBar 100,
   mkBar 100,
   mkBar 96,
   mkBar 96,
   mkBar (2304/25),
   mkBar (2304/25),
   mkBar (55296/625),
   mkBar (55296/625),
   mkBar (1327104/15625),
   mkBar (1327104/15625),
   mkBar (31850496/390625),
   mkBar (31850496/390625)]

/-- The encoder's bucket string for `histSBmed` under `sqrtCx`. -/
theorem state_SBmed :
    createStateRepresentation sqrtCx histSBmed = "below_sma50_oversold_medium" := by
  norm_num [createStateRepresentation, histSBmed, sqrtCx, mkBar, calculateRSI, calculateSMA,
    calculateVolatility, returnsVariance, lastSlice, priceChanges, gainClip, lossClip]
  rfl

/-- As `histSBlo` with down-moves of 2/25: variance exactly 1/625. -/
def histSBhi : List StockPriceHistory :=
  [mkBar 100,
   mkBar 100,
   mkBar 100,
   mkBar 100,
   mkBar 100,
   mkBar 92,
   mkBar 92,
   mkBar (2116/25),
   mkBar (2116/25),
   mkBar (48668/625),
   mkBar (48668/625),
   mkBar (1119364/15625),
   mkBar (1119364/15625),
   mkBar (25745372/390625),
   mkBar (25745372/390625)]

/-- The encoder's bucket string for `histSBhi` under `sqrtCx`. -/
theorem state_SBhi :
    createStateRepresentation sqrtCx histSBhi = "below_sma50_oversold_high" := by
  norm_num [createStateRepresentation, histSBhi, sqrtCx, mkBar, calculateRSI, calculateSMA,
    calculateVolatility, returnsVariance, lastSlice, priceChanges, gainClip, lossClip]
  rfl

/-- `sqrtCx` is exactly the square root of the variance it is applied to
for every non-sentinel history of the replay: the replay's volatilities
are genuine `Math.sqrt` outputs, not stubbed values. -/
theorem sqrtCx_consistent :
    ∀ h ∈ [histNBlo, histNBmed, histNBhi, histNAlo, histNAmed, histNAhi, histOAlo, histOAmed, histOAhi, histOBlo, histSBlo, histSBmed, histSBhi],
      0 ≤ sqrtCx (returnsVariance (h.map (fun day => day.close)) 10) ∧
      sqrtCx (returnsVariance (h.map (fun day => day.close)) 10) *
        sqrtCx (returnsVariance (h.map (fun day => day.close)) 10) =
        returnsVariance (h.map (fun day => day.close)) 10 := by
  intro h hh
  simp only [List.mem_cons, List.not_mem_nil, or_false] at hh
  rcases hh with rfl|rfl|rfl|rfl|rfl|rfl|rfl|rfl|rfl|rfl|rfl|rfl|rfl <;>
    constructor <;>
    norm_num [returnsVariance, sqrtCx, lastSlice, mkBar,
      histNBlo, histNBmed, histNBhi, histNAlo, histNAmed, histNAhi, histOAlo, histOAmed, histOAhi, histOBlo, histSBlo, histSBmed, histSBhi]

/-- The replayed operations: the sentinel history and the thirteen
bucket histories, each with every action, all under the single square
root `sqrtCx`, learning rate 0.01 and execution price 100. -/
def cxOps : List QUpdateOp :=

  [⟨sqrtCx, 1/100, histA, TradingSignal.BUY, 100⟩,
   ⟨sqrtCx, 1/100, histA, TradingSignal.SELL, 100⟩,
   ⟨sqrtCx, 1/100, histA, TradingSignal.HOLD, 100⟩,
   ⟨sqrtCx, 1/100, histNBlo, TradingSignal.BUY, 100⟩,
   ⟨sqrtCx, 1/100, histNBlo, TradingSignal.SELL, 100⟩,
   ⟨sqrtCx, 1/100, histNBlo, TradingSignal.HOLD, 100⟩,
   ⟨sqrtCx, 1/100, histNBmed, TradingSignal.BUY, 100⟩,
   ⟨sqrtCx, 1/100, histNBmed, TradingSignal.SELL, 100⟩,
   ⟨sqrtCx, 1/100, histNBmed, TradingSignal.HOLD, 100⟩,
   ⟨sqrtCx, 1/100, histNBhi, TradingSignal.BUY, 100⟩,
   ⟨sqrtCx, 1/100, histNBhi, TradingSignal.SELL, 100⟩,
   ⟨sqrtCx, 1/100, histNBhi, TradingSignal.HOLD, 100⟩,
   ⟨sqrtCx, 1/100, histNAlo, TradingSignal.BUY, 100⟩,
   ⟨sqrtCx, 1/100, histNAlo, TradingSignal.SELL, 100⟩,
   ⟨sqrtCx, 1/100, histNAlo, TradingSignal.HOLD, 100⟩,
   ⟨sqrtCx, 1/100, histNAmed, TradingSignal.BUY, 100⟩,
   ⟨sqrtCx, 1/100, histNAmed, TradingSignal.SELL, 100⟩,
   ⟨sqrtCx, 1/100, histNAmed, TradingSignal.HOLD, 100⟩,
   ⟨sqrtCx, 1/100, histNAhi, TradingSignal.BUY, 100⟩,
   ⟨sqrtCx, 1/100, histNAhi, TradingSignal.SELL, 100⟩,
   ⟨sqrtCx, 1/100, histNAhi, TradingSignal.HOLD, 100⟩,
   ⟨sqrtCx, 1/100, histOAlo, TradingSignal.BUY, 100⟩,
   ⟨sqrtCx, 1/100, histOAlo, TradingSignal.SELL, 100⟩,
   ⟨sqrtCx, 1/100, histOAlo, TradingSignal.HOLD, 100⟩,
   ⟨sqrtCx, 1/100, histOAmed, TradingSignal.BUY, 100⟩,
   ⟨sqrtCx, 1/100, histOAmed, TradingSignal.SELL, 100⟩,
   ⟨sqrtCx, 1/100, histOAmed, TradingSignal.HOLD, 100⟩,
   ⟨sqrtCx, 1/100, histOAhi, TradingSignal.BUY, 100⟩,
   ⟨sqrtCx, 1/100, histOAhi, TradingSignal.SELL, 100⟩,
   ⟨sqrtCx, 1/100, histOAhi, TradingSignal.HOLD, 100⟩,
   ⟨sqrtCx, 1/100, histOBlo, TradingSignal.BUY, 100⟩,
   ⟨sqrtCx, 1/100, histOBlo, TradingSignal.SELL, 100⟩,
   ⟨sqrtCx, 1/100, histOBlo, TradingSignal.HOLD, 100⟩,
   ⟨sqrtCx, 1/100, histSBlo, TradingSignal.BUY, 100⟩,
   ⟨sqrtCx, 1/100, histSBlo, TradingSignal.SELL, 100⟩,
   ⟨sqrtCx, 1/100, histSBlo, TradingSignal.HOLD, 100⟩,
   ⟨sqrtCx, 1/100, histSBmed, TradingSignal.BUY, 100⟩,
   ⟨sqrtCx, 1/100, histSBmed, TradingSignal.SELL, 100⟩,
   ⟨sqrtCx, 1/100, histSBmed, TradingSignal.HOLD, 100⟩,
   ⟨sqrtCx, 1/100, histSBhi, TradingSignal.BUY, 100⟩,
   ⟨sqrtCx, 1/100, histSBhi, TradingSignal.SELL, 100⟩,
   ⟨sqrtCx, 1/100, histSBhi, TradingSignal.HOLD, 100⟩]

/-- The 42 pairwise distinct key strings the replay writes. -/
def cxKeyList : List String :=

  ["insufficient_data:BUY",
   "insufficient_data:SELL",
   "insufficient_data:HOLD",
   "below_sma50_neutral_low:BUY",
   "below_sma50_neutral_low:SELL",
   "below_sma50_neutral_low:HOLD",
   "below_sma50_neutral_medium:BUY",
   "below_sma50_neutral_medium:SELL",
   "below_sma50_neutral_medium:HOLD",
   "below_sma50_neutral_high:BUY",
   "below_sma50_neutral_high:SELL",
   "below_sma50_neutral_high:HOLD",
   "above_sma50_neutral_low:BUY",
   "above_sma50_neutral_low:SELL",
   "above_sma50_neutral_low:HOLD",
   "above_sma50_neutral_medium:BUY",
   "above_sma50_neutral_medium:SELL",
   "above_sma50_neutral_medium:HOLD",
   "above_sma50_neutral_high:BUY",
   "above_sma50_neutral_high:SELL",
   "above_sma50_neutral_high:HOLD",
   "above_sma50_overbought_low:BUY",
   "above_sma50_overbought_low:SELL",
   "above_sma50_overbought_low:HOLD",
   "above_sma50_overbought_medium:BUY",
   "above_sma50_overbought_medium:SELL",
   "above_sma50_overbought_medium:HOLD",
   "above_sma50_overbought_high:BUY",
   "above_sma50_overbought_high:SELL",
   "above_sma50_overbought_high:HOLD",
   "below_sma50_overbought_low:BUY",
   "below_sma50_overbought_low:SELL",
   "below_sma50_overbought_low:HOLD",
   "below_sma50_oversold_low:BUY",
   "below_sma50_oversold_low:SELL",
   "below_sma50_oversold_low:HOLD",
   "below_sma50_oversold_medium:BUY",
   "below_sma50_oversold_medium:SELL",
   "below_sma50_oversold_medium:HOLD",
   "below_sma50_oversold_high:BUY",
   "below_sma50_oversold_high:SELL",
   "below_sma50_oversold_high:HOLD"]

/-- The key just written by `setQ` is among the stored keys. -/
theorem mem_keys_setQ_self (q : List (String × ℚ)) (k : String) (v : ℚ) :
    k ∈ (setQ q k v).map Prod.fst := by
  induction q with
  | nil => simp [setQ]
  | cons hd tl ih =>
    obtain ⟨k', w⟩ := hd
    by_cases h : k' = k
    · simp [setQ, h]
    · simp only [setQ, if_neg h, List.map_cons, List.mem_cons]
      exact Or.inr ih

/-- `setQ` never removes a stored key. -/
theorem mem_keys_setQ_of_mem (q : List (String × ℚ)) (k : String) (v : ℚ)
    (x : String) (hx : x ∈ q.map Prod.fst) : x ∈ (setQ q k v).map Prod.fst := by
  induction q with
  | nil => simp at hx
  | cons hd tl ih =>
    obtain ⟨k', w⟩ := hd
    simp only [List.map_cons, List.mem_cons] at hx
    by_cases h : k' = k
    · simp only [setQ, if_pos h, List.map_cons, List.mem_cons]
      rcases hx with rfl | hx
      · exact Or.inl h
      · exact Or.inr hx
    · simp only [setQ, if_neg h, List.map_cons, List.mem_cons]
      rcases hx with rfl | hx
      · exact Or.inl rfl
      · exact Or.inr (ih hx)

/-- `updateQValues` never removes a stored key. -/
theorem mem_keys_updateQValues_of_mem (sqrtFn : ℚ → ℚ) (α : ℚ)
    (q : List (String × ℚ)) (bars : List StockPriceHistory)
    (a : TradingSignal) (p : ℚ) (x : String) (hx : x ∈ q.map Prod.fst) :
    x ∈ (updateQValues sqrtFn α q bars a p).map Prod.fst := by
  by_cases h : bars.length < 2
  · have hq : updateQValues sqrtFn α q bars a p = q := by
      unfold updateQValues
      rw [if_pos h]
    rw [hq]
    exact hx
  · rw [updateQValues_set _ _ _ _ _ _ (by omega)]
    exact mem_keys_setQ_of_mem _ _ _ _ hx

/-- Replaying more operations never removes a stored key. -/
theorem mem_keys_runQUpdates_of_mem (ops : List QUpdateOp) :
    ∀ (q : List (String × ℚ)) (x : String), x ∈ q.map Prod.fst →
      x ∈ (runQUpdates ops q).map Prod.fst := by
  induction ops with
  | nil => exact fun q x hx => hx
  | cons op ops ih =>
    intro q x hx
    exact ih _ x (mem_keys_updateQValues_of_mem _ _ _ _ _ _ x hx)

/-- Every operation with at least two bars of history leaves its
`state:action` key in the final table. -/
theorem key_mem_runQUpdates (ops : List QUpdateOp) :
    ∀ (q : List (String × ℚ)), ∀ op ∈ ops, 2 ≤ op.stockHistory.length →
      stateActionKey (createStateRepresentation op.sqrtFn op.stockHistory) op.action ∈
        (runQUpdates ops q).map Prod.fst := by
  induction ops with
  | nil =>
    intro q op hop
    simp at hop
  | cons o os ih =>
    intro q op hop hlen
    have hstep : runQUpdates (o :: os) q =
        runQUpdates os (updateQValues o.sqrtFn o.learningRate q o.stockHistory
          o.action o.currentPrice) := rfl
    rw [hstep]
    rcases List.mem_cons.mp hop with rfl | hm
    · apply mem_keys_runQUpdates_of_mem
      rw [updateQValues_set _ _ _ _ _ _ hlen]
      exact mem_keys_setQ_self _ _ _
    · exact ih _ op hm hlen

/-- C10 counterexample: replaying `cxOps` — a run of the real update
routine under the single square root `sqrtCx`, which `sqrtCx_consistent`
certifies agrees with `Math.sqrt` at every variance it is evaluated on —
from the empty table leaves more than 39 entries (42 distinct keys, one
per reachable state and action, are written), so the claimed 13-state /
39-entry bound is false; the achievable bound is the 19-state / 57-key
one of the amended claim. -/
theorem qTable_39_counterexample : 39 < (runQUpdates cxOps []).length := by
  have hlen_all : ∀ op ∈ cxOps, 2 ≤ op.stockHistory.length := by decide
  have hwk : cxOps.map (fun op =>
      stateActionKey (createStateRepresentation op.sqrtFn op.stockHistory) op.action) =
      cxKeyList := by
    simp only [cxOps, List.map_cons, List.map_nil, state_histA,
      state_NBlo, state_NBmed, state_NBhi,
      state_NAlo, state_NAmed, state_NAhi,
      state_OAlo, state_OAmed, state_OAhi, state_OBlo,
      state_SBlo, state_SBmed, state_SBhi]
    decide
  have hsub : ∀ k ∈ cxKeyList, k ∈ (runQUpdates cxOps []).map Prod.fst := by
    intro k hk
    rw [← hwk] at hk
    obtain ⟨op, hop, rfl⟩ := List.mem_map.mp hk
    exact key_mem_runQUpdates cxOps [] op hop (hlen_all op hop)
  have hfs : cxKeyList.toFinset ⊆ ((runQUpdates cxOps []).map Prod.fst).toFinset := by
    intro x hx
    rw [List.mem_toFinset] at hx ⊢
    exact hsub x hx
  have h1 : cxKeyList.toFinset.card = 42 := by decide
  have h2 := Finset.card_le_card hfs
  have h3 := List.toFinset_card_le ((runQUpdates cxOps []).map Prod.fst)
  have h4 : ((runQUpdates cxOps []).map Prod.fst).length = (runQUpdates cxOps []).length :=
    List.length_map _ _
  omega

end TradingBot

